/-
Verification of the esbulk bulk-ingestion runner (runner.go, package esbulk).

The Go code is shallowly embedded: `Run` becomes a pure function from a
`Runner` and an `Env` (an oracle answering every external effect: HTTP
responses, random server picks, file-system outcomes) to a `RunResult`
holding the trace of observable events, the outcome and the final document
counter.  Go `defer` is modelled by an explicit stack of registered
cleanup closures executed in LIFO order on every return path; `log.Fatal`
(process exit, which skips deferred functions) is modelled by a distinct
`ROutcome.fatal` outcome whose trace contains no cleanup events.

The concurrent producer / worker-pool part of the pipeline (function
`Worker`, which is not part of the sources under verification; its
behaviour is modelled from the specification) is embedded separately as a
small-step transition system `step`/`runSys` over explicit system states,
quantified over all interleavings (label lists).
-/
import Mathlib

namespace Esbulk

/-! ## JSON validity (model of encoding/json syntax checking)

`IsJSON` in the source calls `json.Unmarshal` into a `json.RawMessage`,
which succeeds exactly when the whole input is one syntactically valid
JSON value surrounded by optional whitespace.  We model that grammar with
a fuel-indexed recursive-descent checker; the fuel is initialised to
(input length + 1) and every fuel-consuming call has consumed at least
one input character, so fuel never runs out on real input. -/

def lbrace : Char := Char.ofNat 123

def rbrace : Char := Char.ofNat 125

def isJsonWs (c : Char) : Bool :=
  c = ' ' || c = '\t' || c = '\n' || c = '\r'

def skipWs : List Char → List Char
  | [] => []
  | c :: cs => if isJsonWs c then skipWs cs else c :: cs

def parseLit : List Char → List Char → Option (List Char)
  | [], cs => some cs
  | _ :: _, [] => none
  | l :: ls, c :: cs => if c = l then parseLit ls cs else none

def isHexDigit (c : Char) : Bool :=
  c.isDigit || ('a' ≤ c && c ≤ 'f') || ('A' ≤ c && c ≤ 'F')

def parseStringRest : List Char → Option (List Char)
  | [] => none
  | c :: cs =>
    if c = '"' then some cs
    else if c = '\\' then
      match cs with
      | [] => none
      | e :: cs2 =>
        if e = '"' || e = '\\' || e = '/' || e = 'b' || e = 'f' || e = 'n'
            || e = 'r' || e = 't' then
          parseStringRest cs2
        else if e = 'u' then
          match cs2 with
          | a :: b :: c2 :: d :: cs3 =>
            if isHexDigit a && isHexDigit b && isHexDigit c2 && isHexDigit d then
              parseStringRest cs3
            else none
          | _ => none
        else none
    else if c.toNat < 32 then none
    else parseStringRest cs

def dropDigits (cs : List Char) : List Char := List.dropWhile Char.isDigit cs

/-- Optional exponent part of a JSON number. -/
def parseNumExp (cs : List Char) : Option (List Char) :=
  match cs with
  | [] => some []
  | e :: rest =>
    if e = 'e' || e = 'E' then
      let rest2 := match rest with
        | s :: r2 => if s = '+' || s = '-' then r2 else rest
        | [] => []
      match rest2 with
      | [] => none
      | d :: _ => if d.isDigit then some (dropDigits rest2) else none
    else some cs

/-- Optional fraction part of a JSON number, then exponent. -/
def parseNumFrac (cs : List Char) : Option (List Char) :=
  match cs with
  | '.' :: rest =>
    (match rest with
     | [] => none
     | d :: _ => if d.isDigit then parseNumExp (dropDigits rest) else none)
  | _ => parseNumExp cs

def parseNumber (cs : List Char) : Option (List Char) :=
  let cs1 := match cs with
    | '-' :: r => r
    | _ => cs
  match cs1 with
  | [] => none
  | c :: r =>
    if c = '0' then parseNumFrac r
    else if c.isDigit then parseNumFrac (dropDigits r)
    else none

mutual

def parseValue : Nat → List Char → Option (List Char)
  | 0, _ => none
  | _ + 1, [] => none
  | f + 1, c :: cs =>
    if c = lbrace then parseMembers f (skipWs cs) true
    else if c = '[' then parseElements f (skipWs cs) true
    else if c = '"' then parseStringRest cs
    else if c = 't' then parseLit ['r', 'u', 'e'] cs
    else if c = 'f' then parseLit ['a', 'l', 's', 'e'] cs
    else if c = 'n' then parseLit ['u', 'l', 'l'] cs
    else if c = '-' || c.isDigit then parseNumber (c :: cs)
    else none

def parseMembers : Nat → List Char → Bool → Option (List Char)
  | 0, _, _ => none
  | f + 1, cs, first =>
    match cs with
    | [] => none
    | c :: rest =>
      if first && c = rbrace then some rest
      else if c = '"' then
        match parseStringRest rest with
        | none => none
        | some cs1 =>
          match skipWs cs1 with
          | ':' :: cs2 =>
            (match parseValue f (skipWs cs2) with
             | none => none
             | some cs3 =>
               match skipWs cs3 with
               | ',' :: cs4 => parseMembers f (skipWs cs4) false
               | d :: cs4 => if d = rbrace then some cs4 else none
               | [] => none)
          | _ => none
      else none

def parseElements : Nat → List Char → Bool → Option (List Char)
  | 0, _, _ => none
  | f + 1, cs, first =>
    match cs with
    | [] => none
    | c :: _ =>
      if first && c = ']' then some cs.tail
      else
        match parseValue f cs with
        | none => none
        | some cs1 =>
          match skipWs cs1 with
          | ',' :: cs2 => parseElements f (skipWs cs2) false
          | d :: cs2 => if d = ']' then some cs2 else none
          | [] => none

end

/-- `IsJSON` checks if a string is valid json
(model of `json.Unmarshal([]byte(str), &js) == nil` for a `RawMessage`). -/
def IsJSON (s : String) : Bool :=
  match parseValue (s.data.length + 1) (skipWs s.data) with
  | some rest => (skipWs rest).isEmpty
  | none => false

/-- Whitespace for `strings.TrimSpace` (the Latin-1 part of Go's
`unicode.IsSpace`; input lines are assumed not to carry the exotic
Unicode space code points). -/
def isSpaceChar (c : Char) : Bool :=
  c = ' ' || c = '\t' || c = '\n' || c.toNat = 11 || c.toNat = 12 || c = '\r'
    || c.toNat = 133 || c.toNat = 160

/-- `strings.TrimSpace(line)`: drop leading and trailing whitespace. -/
def trimSpace (s : String) : String :=
  String.mk (((s.data.dropWhile isSpaceChar).reverse.dropWhile isSpaceChar).reverse)

/-! ## Data model (runner.go)

`Runner` carries the fields of the Go struct.  `File *os.File` is
represented by `FileLines`: the list of newline-terminated lines of the
(possibly gzip-decompressed) input, with the terminator stripped; a
trailing fragment without a final newline is not in the list, because
`ReadString` reports it together with `io.EOF` and the loop breaks,
dropping it. -/

structure Runner where
  BatchSize : Int
  CpuProfile : String
  DocType : String
  FileLines : List String
  FileGzipped : Bool
  IdentifierField : String
  IndexName : String
  Mapping : String
  MemProfile : String
  NumWorkers : Nat
  Password : String
  Pipeline : String
  Purge : Bool
  RefreshInterval : String
  Scheme : String
  Servers : List String
  ShowVersion : Bool
  SkipBroken : Bool
  Username : String
  Verbose : Bool
  ZeroReplica : Bool
deriving DecidableEq

/-- The `Options` literal built in `Run` (lines 74-85 of runner.go). -/
structure Options where
  Servers : List String
  Index : String
  DocType : String
  BatchSize : Int
  Verbose : Bool
  Scheme : String
  IDField : String
  Username : String
  Password : String
  Pipeline : String
deriving DecidableEq

/-- Outcome of `pester.Do(req)`: a transport-level error (`err != nil`) or
an HTTP response with a status code and a dump used in error messages. -/
inductive HttpOutcome
  | transportError (msg : String)
  | response (statusCode : Nat) (dump : String)
deriving DecidableEq

/-- An HTTP request as assembled by `indexSettingsRequest` before
`pester.Do` sends it. -/
structure HttpRequest where
  method : String
  url : String
  body : String
  basicAuth : Option (String × String)
  contentType : String
deriving DecidableEq

/-- Which call site of `indexSettingsRequest` issued a settings PUT. -/
inductive PutTag
  | preloadRefresh   -- line 151: refresh_interval = -1 before loading
  | zeroReplica      -- line 164: number_of_replicas = 0 (ZeroReplica mode)
  | restoreRefresh   -- line 140: deferred refresh_interval restoration
  | restoreReplicas  -- line 144: deferred number_of_replicas restoration
deriving DecidableEq

/-- Observable events of a run, in program order. -/
inductive Event
  | deleteIndex
  | createIndex
  | putMapping
  | getSettings (i : Nat)
  | registerCleanup (i : Nat)                                 -- the defer at line 138
  | settingsPut (tag : PutTag) (req : HttpRequest) (out : HttpOutcome)
  | cleanupRun (i : Nat)          -- deferred closure registered at iteration i starts
  | flushIndex (i : Nat)                                      -- FlushIndex(i, options)
  | readLine (line : String)
  | logSkip (line : String)                                   -- verbose skip printf
  | skipLine (line : String)
  | enqueue (line : String)                                   -- queue <- line
  | closeQueue
  | waitWorkers
deriving DecidableEq

/-- Result of a run: `ok`/`err` are the two values of the `error` return;
`fatal` is `log.Fatal` (process exit: deferred cleanups do NOT run). -/
inductive ROutcome
  | ok
  | err (msg : String)
  | fatal (msg : String)
deriving DecidableEq

structure RunResult where
  trace : List Event
  outcome : ROutcome
  counter : Nat
deriving DecidableEq

/-- Oracle answering every external effect of `Run`.  Sequenced effects
are indexed by a per-effect call counter: `put k` / `pick k` answer the
k-th `indexSettingsRequest` call (its `pester.Do` outcome and its
`rand.Intn` draw), `getSettings i` the `GetSettings(i, options)` call;
`getSettings` also yields the `number_of_replicas` value extracted from
the returned settings document (the extraction itself is external:
`GetSettings` is not among the verified sources). -/
structure Env where
  createCpuProfileErr : Option String
  deleteIndexErr : Option String
  createIndexErr : Option String
  mappingFileExists : Bool
  openMappingErr : Option String
  putMappingErr : Option String
  getSettings : Nat → Except String String
  pick : Nat → Nat
  put : Nat → HttpOutcome
  gzipHeaderErr : Option String
  memProfileErr : Option String

/-- `options.Servers[rand.Intn(len(options.Servers))]`; the draw is the
oracle's `pick` value reduced modulo the (always positive) length. -/
def selectServer (servers : List String) (pick : Nat) : String :=
  servers.getD (pick % servers.length) ""

def preloadRefreshBody : String :=
  "\x7b\"index\": \x7b\"refresh_interval\": \"-1\"\x7d\x7d"

def zeroReplicaBody : String :=
  "\x7b\"index\": \x7b\"number_of_replicas\": 0\x7d\x7d"

def restoreRefreshBody (ri : String) : String :=
  "\x7b\"index\": \x7b\"refresh_interval\": \"" ++ ri ++ "\"\x7d\x7d"

/-- Body of the replica-restoration PUT; `%q` applied to the string
extracted from the settings JSON quotes it (escaping of quotes inside the
value is not modelled). -/
def restoreReplicasBody (snap : String) : String :=
  "\x7b\"index\": \x7b\"number_of_replicas\": \"" ++ snap ++ "\"\x7d\x7d"

/-- The request assembled by `indexSettingsRequest` (lines 224-239):
PUT to `server/index/_settings`, basic auth exactly when both username
and password are non-empty, content type application/json.  The
`pester.Do` outcome is supplied separately by the oracle. -/
def indexSettingsRequest (body : String) (options : Options) (pick : Nat) : HttpRequest :=
  let server := selectServer options.Servers pick
  let link := server ++ "/" ++ options.Index ++ "/_settings"
  { method := "PUT"
    url := link
    body := body
    basicAuth :=
      if options.Username ≠ "" ∧ options.Password ≠ "" then
        some (options.Username, options.Password)
      else none
    contentType := "application/json" }

/-- One deferred cleanup closure (lines 138-149), registered at loop
iteration `i` with that iteration's `numberOfReplicas` snapshot `snap`.
The closure stops at the first transport error (`return` inside the
closure); HTTP error statuses are not checked here.  `FlushIndex` is
called with the loop variable `i`, which Go closures capture by
reference: all closures see the single shared variable, whose value at
cleanup time is `sharedI` (the last started iteration), not the
registering iteration.  `k` is the `indexSettingsRequest` call counter.
Errors assigned inside the closure go to the loop-local `err` of line
125, not to the named return value, so they never change `Run`'s result. -/
def runCleanupOne (r : Runner) (o : Options) (env : Env) (k : Nat) (sharedI : Nat)
    (i : Nat) (snap : String) : List Event × Nat :=
  let req1 := indexSettingsRequest (restoreRefreshBody r.RefreshInterval) o (env.pick k)
  let out1 := env.put k
  match out1 with
  | HttpOutcome.transportError _ =>
    ([Event.cleanupRun i, Event.settingsPut PutTag.restoreRefresh req1 out1], k + 1)
  | HttpOutcome.response _ _ =>
    let req2 := indexSettingsRequest (restoreReplicasBody snap) o (env.pick (k + 1))
    let out2 := env.put (k + 1)
    match out2 with
    | HttpOutcome.transportError _ =>
      ([Event.cleanupRun i, Event.settingsPut PutTag.restoreRefresh req1 out1,
        Event.settingsPut PutTag.restoreReplicas req2 out2], k + 2)
    | HttpOutcome.response _ _ =>
      ([Event.cleanupRun i, Event.settingsPut PutTag.restoreRefresh req1 out1,
        Event.settingsPut PutTag.restoreReplicas req2 out2,
        Event.flushIndex sharedI], k + 2)

/-- Execute a list of registered cleanups in the given order, threading
the call counter. -/
def runCleanupsRev (r : Runner) (o : Options) (env : Env) (sharedI : Nat) :
    List (Nat × String) → Nat → List Event
  | [], _ => []
  | (i, snap) :: rest, k =>
    let one := runCleanupOne r o env k sharedI i snap
    one.1 ++ runCleanupsRev r o env sharedI rest one.2

/-- Deferred functions run in LIFO order: reverse of registration order. -/
def runCleanups (r : Runner) (o : Options) (env : Env) (sharedI : Nat)
    (regs : List (Nat × String)) (k : Nat) : List Event :=
  runCleanupsRev r o env sharedI regs.reverse k

/-- Output of one iteration of the settings loop: its events, the next
`indexSettingsRequest` call counter, the cleanup it registered (if it got
as far as the `defer`), and the error on which it returned early. -/
structure StepOut where
  evs : List Event
  k : Nat
  reg : Option (Nat × String)
  fail : Option String
deriving DecidableEq

/-- One iteration of the per-server settings loop (lines 124-167):
fetch the settings snapshot, register the deferred cleanup, PUT
`refresh_interval: -1` (early return on a transport error or a status of
at least 400), and in ZeroReplica mode PUT `number_of_replicas: 0`
(early return only on a transport error). -/
def serverStep (r : Runner) (o : Options) (env : Env) (i k : Nat) : StepOut :=
  match env.getSettings i with
  | Except.error e =>
    { evs := [Event.getSettings i], k := k, reg := none, fail := some e }
  | Except.ok snap =>
    let req := indexSettingsRequest preloadRefreshBody o (env.pick k)
    let out := env.put k
    let evs0 := [Event.getSettings i, Event.registerCleanup i,
                 Event.settingsPut PutTag.preloadRefresh req out]
    match out with
    | HttpOutcome.transportError e =>
      { evs := evs0, k := k + 1, reg := some (i, snap), fail := some e }
    | HttpOutcome.response status dump =>
      if 400 ≤ status then
        { evs := evs0, k := k + 1, reg := some (i, snap)
          fail := some ("got " ++ toString status ++ ": " ++ dump) }
      else if r.ZeroReplica then
        let req2 := indexSettingsRequest zeroReplicaBody o (env.pick (k + 1))
        let out2 := env.put (k + 1)
        let evs1 := evs0 ++ [Event.settingsPut PutTag.zeroReplica req2 out2]
        match out2 with
        | HttpOutcome.transportError e =>
          { evs := evs1, k := k + 2, reg := some (i, snap), fail := some e }
        | HttpOutcome.response _ _ =>
          { evs := evs1, k := k + 2, reg := some (i, snap), fail := none }
      else { evs := evs0, k := k + 1, reg := some (i, snap), fail := none }

/-- Output of the per-server settings loop: the events, the final
`indexSettingsRequest` call counter, the registered cleanups in
registration order, and `some (i, msg)` when the loop returned early at
iteration `i` with error `msg`. -/
structure LoopOut where
  evs : List Event
  k : Nat
  regs : List (Nat × String)
  early : Option (Nat × String)
deriving DecidableEq

/-- The per-server settings loop (lines 123-168) over the remaining
server indices. -/
def serverLoopAux (r : Runner) (o : Options) (env : Env) :
    List Nat → Nat → LoopOut
  | [], k => { evs := [], k := k, regs := [], early := none }
  | i :: rest, k =>
    let st := serverStep r o env i k
    match st.fail with
    | some e =>
      { evs := st.evs, k := st.k, regs := st.reg.toList, early := some (i, e) }
    | none =>
      let lp := serverLoopAux r o env rest st.k
      { evs := st.evs ++ lp.evs, k := lp.k
        regs := st.reg.toList ++ lp.regs, early := lp.early }

/-- The producer read loop (lines 181-202): read a line, trim it, skip
empty lines, in skip-broken mode drop (and, verbosely, log) lines that
are not valid JSON, otherwise enqueue the trimmed line and count it. -/
def readLoop (skipBroken verbose : Bool) : List String → List Event × Nat
  | [] => ([], 0)
  | line :: rest =>
    let res := readLoop skipBroken verbose rest
    let t := trimSpace line
    if t.length = 0 then (Event.readLine line :: res.1, res.2)
    else if skipBroken && !(IsJSON t) then
      (Event.readLine line ::
        ((if verbose then [Event.logSkip t] else []) ++ (Event.skipLine t :: res.1)), res.2)
    else (Event.readLine line :: Event.enqueue t :: res.1, res.2 + 1)

/-- Mapping application (lines 98-113): if the mapping names an existing
file it is opened (possibly failing), then `PutMapping` runs either way. -/
def mappingStep (r : Runner) (env : Env) : List Event × Option String :=
  if r.Mapping = "" then ([], none)
  else if env.mappingFileExists then
    match env.openMappingErr with
    | some e => ([], some e)
    | none =>
      match env.putMappingErr with
      | some e => ([Event.putMapping], some e)
      | none => ([Event.putMapping], none)
  else
    match env.putMappingErr with
    | some e => ([Event.putMapping], some e)
    | none => ([Event.putMapping], none)

/-- Purge, index creation and mapping (lines 89-113). -/
def preflight (r : Runner) (env : Env) : List Event × Option String :=
  let purge : List Event × Option String :=
    if r.Purge then ([Event.deleteIndex], env.deleteIndexErr) else ([], none)
  match purge.2 with
  | some e => (purge.1, some e)
  | none =>
    match env.createIndexErr with
    | some e => (purge.1 ++ [Event.createIndex], some e)
    | none =>
      let m := mappingStep r env
      (purge.1 ++ [Event.createIndex] ++ m.1, m.2)

/-- From the server loop onward (lines 123-218): settings loop, gzip
reader construction (`log.Fatal` on a bad header — skipping all deferred
cleanups), read loop, queue close, worker join, heap profile, and the
deferred cleanups on each return path.  On an early loop return at
iteration `i` the shared loop variable holds `i`; after a complete loop
it holds the last index. -/
def stage2 (r : Runner) (env : Env) (o : Options) : RunResult :=
  let lp := serverLoopAux r o env (List.range o.Servers.length) 0
  match lp.early with
  | some (i, e) =>
    { trace := lp.evs ++ runCleanups r o env i lp.regs lp.k
      outcome := ROutcome.err e
      counter := 0 }
  | none =>
    let sharedI := o.Servers.length - 1
    match (if r.FileGzipped then env.gzipHeaderErr else none) with
    | some e => { trace := lp.evs, outcome := ROutcome.fatal e, counter := 0 }
    | none =>
      let rd := readLoop r.SkipBroken r.Verbose r.FileLines
      let evs := lp.evs ++ rd.1 ++ [Event.closeQueue, Event.waitWorkers]
      let evClean := runCleanups r o env sharedI lp.regs lp.k
      match (if r.MemProfile ≠ "" then env.memProfileErr else none) with
      | some e => { trace := evs ++ evClean, outcome := ROutcome.err e, counter := rd.2 }
      | none => { trace := evs ++ evClean, outcome := ROutcome.ok, counter := rd.2 }

/-- Lines 68-70: an empty server list is replaced by the single default
endpoint. -/
def runServers (r : Runner) : List String :=
  if r.Servers.isEmpty then ["http://localhost:9200"] else r.Servers

/-- The `Options` literal of lines 74-85 (scheme hardcoded to "http"). -/
def runOptions (r : Runner) : Options :=
  { Servers := runServers r, Index := r.IndexName, DocType := r.DocType
    BatchSize := r.BatchSize, Verbose := r.Verbose, Scheme := "http"
    IDField := r.IdentifierField, Username := r.Username
    Password := r.Password, Pipeline := r.Pipeline }

/-- `Run` (lines 52-219).  Version printing and CPU-profile creation come
first, then the index-name check, the default-server fallback, the
`Options` literal, preflight, and `stage2`. -/
def Run (r : Runner) (env : Env) : RunResult :=
  if r.ShowVersion then { trace := [], outcome := ROutcome.ok, counter := 0 }
  else
    match (if r.CpuProfile ≠ "" then env.createCpuProfileErr else none) with
    | some e => { trace := [], outcome := ROutcome.err e, counter := 0 }
    | none =>
      if r.IndexName = "" then
        { trace := [], outcome := ROutcome.err "index name required", counter := 0 }
      else
        let pf := preflight r env
        match pf.2 with
        | some e => { trace := pf.1, outcome := ROutcome.err e, counter := 0 }
        | none =>
          let res := stage2 r env (runOptions r)
          { trace := pf.1 ++ res.trace, outcome := res.outcome, counter := res.counter }

/-- The settings loop as `Run` executes it. -/
def runLoop (r : Runner) (env : Env) : LoopOut :=
  serverLoopAux r (runOptions r) env (List.range (runOptions r).Servers.length) 0

/-- The read loop as `Run` executes it. -/
def runRead (r : Runner) : List Event × Nat :=
  readLoop r.SkipBroken r.Verbose r.FileLines

/-! ## The producer / worker-pool system (lines 114-122, 200-204, and
`Worker`)

`Worker` itself is not among the verified sources.
Modelled from the spec: a Worker pulls lines from the shared unbuffered
queue, accumulates them into batches of the configured size, hands a full
batch to the transport client, and when the queue is closed flushes its
final partial batch (if non-empty) and terminates, signalling the
WaitGroup; `wg.Wait()` returns only when every worker has terminated.

The system is a small-step machine over explicit states; a schedule is a
list of labels, and the claims are proved for every schedule.  A
`deliver w` step is the rendezvous `queue <- line` paired with worker
`w`'s receive, together with the producer's `counter++` of line 201 —
the counter update is executed by the producer goroutine, never by a
worker.  `flushSent w` hands worker `w`'s full batch to the transport
client; `drain w` is worker `w` observing the closed channel, flushing
its partial batch and terminating; `closeQ` is `close(queue)` (line 203),
enabled once the input is exhausted; `ret` is `wg.Wait()` returning
(line 204), enabled only when every worker has terminated. -/

structure WState where
  batch : List String
  sent : List (List String)
  terminated : Bool
deriving DecidableEq

structure Sys where
  pending : List String
  counter : Nat
  closed : Bool
  returned : Bool
  workers : List WState
deriving DecidableEq

inductive SLabel
  | deliver (w : Nat)
  | flushSent (w : Nat)
  | drain (w : Nat)
  | closeQ
  | ret
deriving DecidableEq

/-- One scheduled step; `none` when the label is not enabled. -/
def step (bs : Nat) (s : Sys) : SLabel → Option Sys
  | SLabel.deliver w =>
    match s.pending with
    | [] => none
    | line :: rest =>
      if s.closed then none
      else
        match s.workers.get? w with
        | none => none
        | some ws =>
          if ws.terminated then none
          else if bs ≤ ws.batch.length then none
          else
            some { s with
                   pending := rest
                   counter := s.counter + 1
                   workers := s.workers.set w { ws with batch := ws.batch ++ [line] } }
  | SLabel.flushSent w =>
    match s.workers.get? w with
    | none => none
    | some ws =>
      if ws.terminated || decide (ws.batch.length ≠ bs) || decide (bs = 0) then none
      else
        some { s with workers :=
          s.workers.set w { ws with batch := [], sent := ws.sent ++ [ws.batch] } }
  | SLabel.drain w =>
    if !s.closed then none
    else
      match s.workers.get? w with
      | none => none
      | some ws =>
        if ws.terminated then none
        else
          let ws' : WState :=
            { batch := []
              sent := if ws.batch.isEmpty then ws.sent else ws.sent ++ [ws.batch]
              terminated := true }
          some { s with workers := s.workers.set w ws' }
  | SLabel.closeQ =>
    if s.closed || !s.pending.isEmpty then none
    else some { s with closed := true }
  | SLabel.ret =>
    if s.closed && s.workers.all (fun w => w.terminated) && !s.returned then
      some { s with returned := true }
    else none

/-- Run a whole schedule; `none` if any step is not enabled. -/
def runSys (bs : Nat) : Sys → List SLabel → Option Sys
  | s, [] => some s
  | s, l :: ls =>
    match step bs s l with
    | none => none
    | some s' => runSys bs s' ls

/-- The state after `wg.Add` and spawning `n` workers, with the filtered
input stream still to be enqueued. -/
def initSys (lines : List String) (n : Nat) : Sys :=
  { pending := lines, counter := 0, closed := false, returned := false
    workers := List.replicate n { batch := [], sent := [], terminated := false } }

/-- All documents a worker owns: its in-progress batch plus everything it
handed to the transport client. -/
def wload (ws : WState) : Multiset String :=
  (ws.batch : Multiset String) + (ws.sent.flatten : Multiset String)

/-- All documents in the system: not yet enqueued, in a worker's batch,
or in a sent batch. -/
def load (s : Sys) : Multiset String :=
  (s.pending : Multiset String) + (s.workers.map wload).sum

/-- The documents handed to the transport client, over all workers. -/
def sentDocs (s : Sys) : List String :=
  (s.workers.map (fun ws => ws.sent.flatten)).flatten

/-! ## Trace observations -/

def enqOf : Event → Option String
  | Event.enqueue l => some l
  | _ => none

def skipOf : Event → Option String
  | Event.skipLine l => some l
  | _ => none

def logOf : Event → Option String
  | Event.logSkip l => some l
  | _ => none

def enqueuedLines (evs : List Event) : List String := evs.filterMap enqOf

def skipEventLines (evs : List Event) : List String := evs.filterMap skipOf

def logSkipLines (evs : List Event) : List String := evs.filterMap logOf

/-- The trimmed lines the read loop hands to the queue: not blank and, in
skip-broken mode, valid JSON. -/
def keptLines (skipBroken : Bool) : List String → List String
  | [] => []
  | l :: rest =>
    let t := trimSpace l
    if t.length = 0 then keptLines skipBroken rest
    else if skipBroken && !(IsJSON t) then keptLines skipBroken rest
    else t :: keptLines skipBroken rest

/-- The trimmed non-blank lines that are not valid JSON (dropped by the
read loop in skip-broken mode). -/
def droppedLines : List String → List String
  | [] => []
  | l :: rest =>
    let t := trimSpace l
    if t.length = 0 then droppedLines rest
    else if !(IsJSON t) then t :: droppedLines rest
    else droppedLines rest

/-- Events the settings loop can emit. -/
def isLoopEvent : Event → Bool
  | Event.getSettings _ => true
  | Event.registerCleanup _ => true
  | Event.settingsPut PutTag.preloadRefresh _ _ => true
  | Event.settingsPut PutTag.zeroReplica _ _ => true
  | _ => false

/-- Events a deferred cleanup can emit. -/
def isCleanupEvent : Event → Bool
  | Event.cleanupRun _ => true
  | Event.settingsPut PutTag.restoreRefresh _ _ => true
  | Event.settingsPut PutTag.restoreReplicas _ _ => true
  | Event.flushIndex _ => true
  | _ => false

/-- Events the read loop can emit. -/
def isReadEvent : Event → Bool
  | Event.readLine _ => true
  | Event.logSkip _ => true
  | Event.skipLine _ => true
  | Event.enqueue _ => true
  | _ => false

/-- Events the preflight (purge / create / mapping) can emit. -/
def isPreflightEvent : Event → Bool
  | Event.deleteIndex => true
  | Event.createIndex => true
  | Event.putMapping => true
  | _ => false

/-- A `pester.Do` outcome `Run` treats as failure at the preload site:
a transport error or an HTTP status of at least 400. -/
def failed : HttpOutcome → Bool
  | HttpOutcome.transportError _ => true
  | HttpOutcome.response s _ => decide (400 ≤ s)

def isRegisterEvent : Event → Bool
  | Event.registerCleanup _ => true
  | _ => false

def isPreloadPut : Event → Bool
  | Event.settingsPut PutTag.preloadRefresh _ _ => true
  | _ => false

def isFlushEvent : Event → Bool
  | Event.flushIndex _ => true
  | _ => false

/-- Index of the first event satisfying `p` (list length if none). -/
def firstIdx (p : Event → Bool) (evs : List Event) : Nat := List.findIdx p evs

/-- Steps executed by a Worker goroutine.  `deliver` pairs the rendezvous
send with the producer's `counter++` of line 201, which runs in `Run`'s
own goroutine, so it is not a worker step. -/
def isWorkerStep : SLabel → Bool
  | SLabel.flushSent _ => true
  | SLabel.drain _ => true
  | _ => false

/-- How many scheduled steps both change the counter and are executed by
a Worker goroutine. -/
def countWorkerIncrements (bs : Nat) : Sys → List SLabel → Nat
  | _, [] => 0
  | s, l :: ls =>
    match step bs s l with
    | none => 0
    | some s' =>
      (if s'.counter ≠ s.counter ∧ isWorkerStep l = true then 1 else 0) +
        countWorkerIncrements bs s' ls

/-! ## Concrete runs used as test vectors -/

/-- An oracle on which every external effect succeeds; every settings
request is answered with status 200 and every snapshot is "1". -/
def happyEnv : Env :=
  { createCpuProfileErr := none, deleteIndexErr := none, createIndexErr := none
    mappingFileExists := false, openMappingErr := none, putMappingErr := none
    getSettings := fun _ => Except.ok "1", pick := fun _ => 0
    put := fun _ => HttpOutcome.response 200 "", gzipHeaderErr := none
    memProfileErr := none }

def baseRunner : Runner :=
  { BatchSize := 1000, CpuProfile := "", DocType := "default", FileLines := []
    FileGzipped := false, IdentifierField := "", IndexName := "idx", Mapping := ""
    MemProfile := "", NumWorkers := 2, Password := "", Pipeline := "", Purge := false
    RefreshInterval := "1s", Scheme := "", Servers := ["http://s0", "http://s1"]
    ShowVersion := false, SkipBroken := false, Username := "", Verbose := false
    ZeroReplica := false }

/-- One server, empty input: the smallest complete run. -/
def oneServerRunner : Runner := { baseRunner with Servers := ["http://s0"] }

/-- Two servers, everything succeeding: exhibits which index the deferred
cleanups flush. -/
def twoServerRunner : Runner := baseRunner

/-- Oracle whose very first settings PUT (the preload refresh disable on
server 0) comes back with status 500. -/
def failFirstPutEnv : Env :=
  { happyEnv with
    put := fun k => if k = 0 then HttpOutcome.response 500 "boom"
                    else HttpOutcome.response 200 "" }

/-- The request and outcome of the failing preload PUT of
`failFirstPutEnv` on `oneServerRunner`. -/
def failFirstReq : HttpRequest :=
  indexSettingsRequest preloadRefreshBody (runOptions oneServerRunner) 0

def failFirstOut : HttpOutcome := HttpOutcome.response 500 "boom"

/-- Ten valid JSON lines plus one broken line, skip-broken mode on,
verbose on. -/
def skipRunner : Runner :=
  { baseRunner with
    Servers := ["http://s0"], SkipBroken := true, Verbose := true
    FileLines := ["1", "2", "3", "4", "5", "6", "7", "8", "9", "10", "not json"] }

/-- Blank and non-blank lines, skip-broken off. -/
def blankRunner : Runner :=
  { baseRunner with
    Servers := ["http://s0"]
    FileLines := ["1", "", "   ", "2"] }

def emptyIndexRunner : Runner := { baseRunner with IndexName := "" }

def noServersRunner : Runner := { baseRunner with Servers := [] }

/-- Worker-pool test vector: three lines, two workers, batch size two. -/
def c3lines : List String := ["a", "b", "c"]

def c3labels : List SLabel :=
  [SLabel.deliver 0, SLabel.deliver 0, SLabel.flushSent 0, SLabel.deliver 1,
   SLabel.closeQ, SLabel.drain 0, SLabel.drain 1, SLabel.ret]

def c3state : Sys :=
  { pending := [], counter := 3, closed := true, returned := true
    workers := [{ batch := [], sent := [["a", "b"]], terminated := true },
                { batch := [], sent := [["c"]], terminated := true }] }

/-- Worker-pool test vector for the counter: three lines, two workers. -/
def c6lines : List String := ["x", "y", "z"]

def c6labels : List SLabel :=
  [SLabel.deliver 0, SLabel.deliver 1, SLabel.deliver 0, SLabel.closeQ,
   SLabel.drain 0, SLabel.drain 1, SLabel.ret]

def c6state : Sys :=
  { pending := [], counter := 3, closed := true, returned := true
    workers := [{ batch := [], sent := [["x", "z"]], terminated := true },
                { batch := [], sent := [["y"]], terminated := true }] }

/-- Invariant of the producer / worker-pool system started on input
`L0` with `n` workers: the worker list keeps its size; the documents in
the system (pending + in-progress batches + sent batches) are exactly
the input; the counter counts delivered lines; a closed queue has no
pending line; a terminated worker holds no batch; and a returned
dispatcher implies a closed queue and only terminated workers. -/
def SysInv (L0 : List String) (n : Nat) (s : Sys) : Prop :=
  s.workers.length = n ∧
  load s = (L0 : Multiset String) ∧
  s.counter + s.pending.length = L0.length ∧
  (s.closed = true → s.pending = []) ∧
  (∀ ws ∈ s.workers, ws.terminated = true → ws.batch = []) ∧
  (s.returned = true → s.closed = true ∧ ∀ ws ∈ s.workers, ws.terminated = true)

/-- The preload request of the defaulted-server run, for concrete
instantiation. -/
def c9req : HttpRequest :=
  indexSettingsRequest preloadRefreshBody (runOptions noServersRunner) 0

/-- Options with both credentials configured. -/
def authOptions : Options :=
  { Servers := ["http://s0"], Index := "idx", DocType := "default"
    BatchSize := 1000, Verbose := false, Scheme := "http", IDField := ""
    Username := "u", Password := "p", Pipeline := "" }

/-- Options with a username but an empty password. -/
def userOnlyOptions : Options := { authOptions with Password := "" }

def isFatal : ROutcome → Bool
  | ROutcome.fatal _ => true
  | _ => false

def isErr : ROutcome → Bool
  | ROutcome.err _ => true
  | _ => false

def isReadLineEvent : Event → Bool
  | Event.readLine _ => true
  | _ => false

def isEnqueueEvent : Event → Bool
  | Event.enqueue _ => true
  | _ => false

/-! # Lemmas

## Read-loop lemmas -/

theorem readLoop_enqueued (sb v : Bool) (ls : List String) :
    enqueuedLines (readLoop sb v ls).1 = keptLines sb ls := by
  induction ls with
  | nil => rfl
  | cons l rest ih =>
    simp only [readLoop, keptLines]
    by_cases h1 : (trimSpace l).length = 0
    · simp only [h1, if_true, enqueuedLines, List.filterMap_cons, enqOf]
      exact ih
    · by_cases h2 : (sb && !(IsJSON (trimSpace l))) = true
      · simp only [if_neg h1, if_pos h2]
        cases v <;>
          simp only [enqueuedLines, List.filterMap_cons, List.filterMap_append,
            enqOf, if_true, if_false] <;>
          exact ih
      · simp only [if_neg h1, if_neg h2, enqueuedLines, List.filterMap_cons, enqOf]
        exact congrArg (List.cons (trimSpace l)) ih

theorem readLoop_count (sb v : Bool) (ls : List String) :
    (readLoop sb v ls).2 = (keptLines sb ls).length := by
  induction ls with
  | nil => rfl
  | cons l rest ih =>
    simp only [readLoop, keptLines]
    by_cases h1 : (trimSpace l).length = 0
    · simp only [if_pos h1]; exact ih
    · by_cases h2 : (sb && !(IsJSON (trimSpace l))) = true
      · simp only [if_neg h1, if_pos h2]; exact ih
      · simp only [if_neg h1, if_neg h2, List.length_cons]
        rw [ih]

theorem readLoop_skips (sb v : Bool) (ls : List String) (hsb : sb = true) :
    skipEventLines (readLoop sb v ls).1 = droppedLines ls := by
  subst hsb
  induction ls with
  | nil => rfl
  | cons l rest ih =>
    simp only [readLoop, droppedLines]
    by_cases h1 : (trimSpace l).length = 0
    · simp only [if_pos h1, skipEventLines, List.filterMap_cons, skipOf]
      exact ih
    · by_cases h2 : (true && !(IsJSON (trimSpace l))) = true
      · simp only [if_neg h1, if_pos h2, Bool.true_and] at *
        cases v <;>
          simp only [skipEventLines, List.filterMap_cons, List.filterMap_append, skipOf,
            h2, if_pos, if_true, if_false, logOf, List.nil_append, List.append_nil] <;>
          exact congrArg (List.cons (trimSpace l)) ih
      · simp only [Bool.true_and] at h2
        simp only [if_neg h1, if_pos, Bool.true_and, if_neg h2, skipEventLines,
          List.filterMap_cons, skipOf]
        exact ih

theorem readLoop_logs (sb v : Bool) (ls : List String) (hsb : sb = true) (hv : v = true) :
    logSkipLines (readLoop sb v ls).1 = droppedLines ls := by
  subst hsb; subst hv
  induction ls with
  | nil => rfl
  | cons l rest ih =>
    simp only [readLoop, droppedLines]
    by_cases h1 : (trimSpace l).length = 0
    · simp only [if_pos h1, logSkipLines, List.filterMap_cons, logOf]
      exact ih
    · by_cases h2 : (true && !(IsJSON (trimSpace l))) = true
      · simp only [Bool.true_and] at h2
        simp only [if_neg h1, h2, Bool.true_and, if_true, logSkipLines,
          List.filterMap_cons, List.filterMap_append, logOf, List.singleton_append]
        exact congrArg (List.cons (trimSpace l)) ih
      · simp only [Bool.true_and] at h2
        simp only [if_neg h1, Bool.true_and, if_neg h2, logSkipLines,
          List.filterMap_cons, logOf]
        exact ih

theorem readLoop_events_read (sb v : Bool) (ls : List String) :
    ∀ e ∈ (readLoop sb v ls).1, isReadEvent e = true := by
  induction ls with
  | nil => intro e he; cases he
  | cons l rest ih =>
    intro e he
    simp only [readLoop] at he
    by_cases h1 : (trimSpace l).length = 0
    · rw [if_pos h1] at he
      rcases List.mem_cons.mp he with h | h
      · subst h; rfl
      · exact ih e h
    · by_cases h2 : (sb && !(IsJSON (trimSpace l))) = true
      · rw [if_neg h1, if_pos h2] at he
        rcases List.mem_cons.mp he with h | h
        · subst h; rfl
        · rcases List.mem_append.mp h with h3 | h3
          · cases v <;> simp_all [isReadEvent]
          · rcases List.mem_cons.mp h3 with h4 | h4
            · subst h4; rfl
            · exact ih e h4
      · rw [if_neg h1, if_neg h2] at he
        rcases List.mem_cons.mp he with h | h
        · subst h; rfl
        · rcases List.mem_cons.mp h with h4 | h4
          · subst h4; rfl
          · exact ih e h4


/-! ## Settings-loop lemmas -/

theorem serverStep_facts (r : Runner) (o : Options) (env : Env) (i k : Nat) :
    (∀ e ∈ (serverStep r o env i k).evs, isLoopEvent e = true) ∧
    ((serverStep r o env i k).fail = none → ∀ req out,
        Event.settingsPut PutTag.preloadRefresh req out ∈ (serverStep r o env i k).evs →
        failed out = false) ∧
    (∀ j, Event.registerCleanup j ∈ (serverStep r o env i k).evs →
        ∃ s, (serverStep r o env i k).reg = some (j, s)) ∧
    (∀ tag req out, Event.settingsPut tag req out ∈ (serverStep r o env i k).evs →
        ∃ b p, req = indexSettingsRequest b o p) := by
  cases hg : env.getSettings i with
  | error e1 =>
    simp only [serverStep, hg]
    refine ⟨?_, ?_, ?_, ?_⟩
    · intro e he; simp at he; subst he; rfl
    · intro h; simp at h
    · intro j hj; simp at hj
    · intro tag req out h; simp at h
  | ok snap =>
    cases hp : env.put k with
    | transportError msg =>
      simp only [serverStep, hg, hp]
      refine ⟨?_, ?_, ?_, ?_⟩
      · intro e he; simp at he; rcases he with rfl | rfl | rfl <;> rfl
      · intro h; simp at h
      · intro j hj; simp at hj; subst hj; exact ⟨_, rfl⟩
      · intro tag req out h; simp at h
        rcases h with ⟨rfl, rfl, rfl⟩; exact ⟨_, _, rfl⟩
    | response status dump =>
      by_cases hs : 400 ≤ status
      · simp only [serverStep, hg, hp, if_pos hs]
        refine ⟨?_, ?_, ?_, ?_⟩
        · intro e he; simp at he; rcases he with rfl | rfl | rfl <;> rfl
        · intro h; simp at h
        · intro j hj; simp at hj; subst hj; exact ⟨_, rfl⟩
        · intro tag req out h; simp at h
          rcases h with ⟨rfl, rfl, rfl⟩; exact ⟨_, _, rfl⟩
      · cases hz : r.ZeroReplica with
        | false =>
          simp only [serverStep, hg, hp, if_neg hs, hz, Bool.false_eq_true, if_false]
          refine ⟨?_, ?_, ?_, ?_⟩
          · intro e he; simp at he; rcases he with rfl | rfl | rfl <;> rfl
          · intro _ req out h; simp at h
            obtain ⟨rfl, rfl⟩ := h
            simp [failed, hs]
          · intro j hj; simp at hj; subst hj; exact ⟨_, rfl⟩
          · intro tag req out h; simp at h
            rcases h with ⟨rfl, rfl, rfl⟩; exact ⟨_, _, rfl⟩
        | true =>
          cases hp2 : env.put (k + 1) with
          | transportError msg2 =>
            simp only [serverStep, hg, hp, if_neg hs, hz, if_true, hp2]
            refine ⟨?_, ?_, ?_, ?_⟩
            · intro e he; simp at he; rcases he with rfl | rfl | rfl | rfl <;> rfl
            · intro h; simp at h
            · intro j hj; simp at hj; subst hj; exact ⟨_, rfl⟩
            · intro tag req out h; simp at h
              rcases h with ⟨rfl, rfl, rfl⟩ | ⟨rfl, rfl, rfl⟩ <;> exact ⟨_, _, rfl⟩
          | response st2 d2 =>
            simp only [serverStep, hg, hp, if_neg hs, hz, if_true, hp2]
            refine ⟨?_, ?_, ?_, ?_⟩
            · intro e he; simp at he; rcases he with rfl | rfl | rfl | rfl <;> rfl
            · intro _ req out h; simp at h
              obtain ⟨rfl, rfl⟩ := h
              simp [failed, hs]
            · intro j hj; simp at hj; subst hj; exact ⟨_, rfl⟩
            · intro tag req out h; simp at h
              rcases h with ⟨rfl, rfl, rfl⟩ | ⟨rfl, rfl, rfl⟩ <;> exact ⟨_, _, rfl⟩

theorem serverLoop_shape (r : Runner) (o : Options) (env : Env) (is : List Nat) :
    ∀ k, ∀ e ∈ (serverLoopAux r o env is k).evs, isLoopEvent e = true := by
  induction is with
  | nil => intro k e he; cases he
  | cons i rest ih =>
    intro k e he
    simp only [serverLoopAux] at he
    cases hf : (serverStep r o env i k).fail with
    | some e1 =>
      rw [hf] at he
      simp only at he
      exact (serverStep_facts r o env i k).1 e he
    | none =>
      rw [hf] at he
      simp only at he
      rcases List.mem_append.mp he with h | h
      · exact (serverStep_facts r o env i k).1 e h
      · exact ih _ e h

theorem serverLoop_reg (r : Runner) (o : Options) (env : Env) (is : List Nat) :
    ∀ k j, Event.registerCleanup j ∈ (serverLoopAux r o env is k).evs →
      ∃ s, (j, s) ∈ (serverLoopAux r o env is k).regs := by
  induction is with
  | nil => intro k j hj; cases hj
  | cons i rest ih =>
    intro k j hj
    simp only [serverLoopAux] at hj ⊢
    cases hf : (serverStep r o env i k).fail with
    | some e1 =>
      rw [hf] at hj
      simp only at hj
      show ∃ s, (j, s) ∈ (serverStep r o env i k).reg.toList
      obtain ⟨s, hs⟩ := (serverStep_facts r o env i k).2.2.1 j hj
      exact ⟨s, by simp [hs]⟩
    | none =>
      rw [hf] at hj
      simp only at hj
      show ∃ s, (j, s) ∈ (serverStep r o env i k).reg.toList ++
        (serverLoopAux r o env rest (serverStep r o env i k).k).regs
      rcases List.mem_append.mp hj with h | h
      · obtain ⟨s, hs⟩ := (serverStep_facts r o env i k).2.2.1 j h
        refine ⟨s, List.mem_append.mpr (Or.inl ?_)⟩
        simp [hs]
      · obtain ⟨s, hs⟩ := ih _ j h
        exact ⟨s, List.mem_append.mpr (Or.inr hs)⟩

theorem serverLoop_preload_ok (r : Runner) (o : Options) (env : Env) (is : List Nat) :
    ∀ k, (serverLoopAux r o env is k).early = none →
      ∀ req out, Event.settingsPut PutTag.preloadRefresh req out ∈ (serverLoopAux r o env is k).evs →
        failed out = false := by
  induction is with
  | nil => intro k _ req out h; cases h
  | cons i rest ih =>
    intro k he req out hmem
    simp only [serverLoopAux] at he hmem
    cases hf : (serverStep r o env i k).fail with
    | some e1 =>
      rw [hf] at he
      simp only at he
      exact Option.noConfusion he
    | none =>
      rw [hf] at he hmem
      simp only at he hmem
      rcases List.mem_append.mp hmem with h | h
      · exact (serverStep_facts r o env i k).2.1 hf req out h
      · exact ih _ he req out h

theorem serverLoop_reqs (r : Runner) (o : Options) (env : Env) (is : List Nat) :
    ∀ k tag req out, Event.settingsPut tag req out ∈ (serverLoopAux r o env is k).evs →
      ∃ b p, req = indexSettingsRequest b o p := by
  induction is with
  | nil => intro k tag req out h; cases h
  | cons i rest ih =>
    intro k tag req out h
    simp only [serverLoopAux] at h
    cases hf : (serverStep r o env i k).fail with
    | some e1 =>
      rw [hf] at h
      simp only at h
      exact (serverStep_facts r o env i k).2.2.2 tag req out h
    | none =>
      rw [hf] at h
      simp only at h
      rcases List.mem_append.mp h with h | h
      · exact (serverStep_facts r o env i k).2.2.2 tag req out h
      · exact ih _ tag req out h


/-! ## Cleanup lemmas -/

theorem runCleanupOne_facts (r : Runner) (o : Options) (env : Env) (k sharedI i : Nat)
    (snap : String) :
    (∀ e ∈ (runCleanupOne r o env k sharedI i snap).1, isCleanupEvent e = true) ∧
    Event.cleanupRun i ∈ (runCleanupOne r o env k sharedI i snap).1 ∧
    (∀ tag req out, Event.settingsPut tag req out ∈ (runCleanupOne r o env k sharedI i snap).1 →
        ∃ b p, req = indexSettingsRequest b o p) := by
  cases h1 : env.put k with
  | transportError m1 =>
    simp only [runCleanupOne, h1]
    refine ⟨?_, by simp, ?_⟩
    · intro e he; simp at he; rcases he with rfl | rfl <;> rfl
    · intro tag req out h; simp at h
      rcases h with ⟨rfl, rfl, rfl⟩; exact ⟨_, _, rfl⟩
  | response s1 d1 =>
    cases h2 : env.put (k + 1) with
    | transportError m2 =>
      simp only [runCleanupOne, h1, h2]
      refine ⟨?_, by simp, ?_⟩
      · intro e he; simp at he; rcases he with rfl | rfl | rfl <;> rfl
      · intro tag req out h; simp at h
        rcases h with ⟨rfl, rfl, rfl⟩ | ⟨rfl, rfl, rfl⟩ <;> exact ⟨_, _, rfl⟩
    | response s2 d2 =>
      simp only [runCleanupOne, h1, h2]
      refine ⟨?_, by simp, ?_⟩
      · intro e he; simp at he; rcases he with rfl | rfl | rfl | rfl <;> rfl
      · intro tag req out h; simp at h
        rcases h with ⟨rfl, rfl, rfl⟩ | ⟨rfl, rfl, rfl⟩ <;> exact ⟨_, _, rfl⟩

theorem runCleanupsRev_shape (r : Runner) (o : Options) (env : Env) (sharedI : Nat)
    (l : List (Nat × String)) :
    ∀ k, ∀ e ∈ runCleanupsRev r o env sharedI l k, isCleanupEvent e = true := by
  induction l with
  | nil => intro k e he; cases he
  | cons p rest ih =>
    obtain ⟨i, snap⟩ := p
    intro k e he
    simp only [runCleanupsRev] at he
    rcases List.mem_append.mp he with h | h
    · exact (runCleanupOne_facts r o env k sharedI i snap).1 e h
    · exact ih _ e h

theorem runCleanupsRev_run_mem (r : Runner) (o : Options) (env : Env) (sharedI : Nat)
    (l : List (Nat × String)) :
    ∀ k j s, (j, s) ∈ l → Event.cleanupRun j ∈ runCleanupsRev r o env sharedI l k := by
  induction l with
  | nil => intro k j s h; cases h
  | cons p rest ih =>
    obtain ⟨i, snap⟩ := p
    intro k j s h
    simp only [runCleanupsRev]
    rcases List.mem_cons.mp h with h1 | h1
    · rw [Prod.ext_iff] at h1
      obtain ⟨h2, h3⟩ := h1
      subst h2
      exact List.mem_append.mpr
        (Or.inl (runCleanupOne_facts r o env k sharedI j snap).2.1)
    · exact List.mem_append.mpr (Or.inr (ih _ j s h1))

theorem runCleanupsRev_reqs (r : Runner) (o : Options) (env : Env) (sharedI : Nat)
    (l : List (Nat × String)) :
    ∀ k tag req out, Event.settingsPut tag req out ∈ runCleanupsRev r o env sharedI l k →
      ∃ b p, req = indexSettingsRequest b o p := by
  induction l with
  | nil => intro k tag req out h; cases h
  | cons p rest ih =>
    obtain ⟨i, snap⟩ := p
    intro k tag req out h
    simp only [runCleanupsRev] at h
    rcases List.mem_append.mp h with h | h
    · exact (runCleanupOne_facts r o env k sharedI i snap).2.2 tag req out h
    · exact ih _ tag req out h


/-! ## Preflight and cleanup wrappers -/

theorem mappingStep_shape (r : Runner) (env : Env) :
    ∀ e ∈ (mappingStep r env).1, isPreflightEvent e = true := by
  intro e he
  unfold mappingStep at he
  split at he
  · cases he
  · split at he
    · split at he
      · cases he
      · split at he <;> (simp at he; subst he; rfl)
    · split at he <;> (simp at he; subst he; rfl)

theorem preflight_shape (r : Runner) (env : Env) :
    ∀ e ∈ (preflight r env).1, isPreflightEvent e = true := by
  intro e he
  cases hp : r.Purge with
  | true =>
    simp only [preflight, hp, if_true] at he
    cases hd : env.deleteIndexErr with
    | some e1 =>
      rw [hd] at he; simp at he; subst he; rfl
    | none =>
      rw [hd] at he; simp only at he
      cases hc : env.createIndexErr with
      | some e1 =>
        rw [hc] at he; simp at he
        rcases he with rfl | rfl <;> rfl
      | none =>
        rw [hc] at he; simp only at he
        rcases List.mem_append.mp he with h | h
        · rcases List.mem_append.mp h with h1 | h1
          · simp at h1; subst h1; rfl
          · simp at h1; subst h1; rfl
        · exact mappingStep_shape r env e h
  | false =>
    simp only [preflight, hp, if_false] at he
    cases hc : env.createIndexErr with
    | some e1 =>
      rw [hc] at he; simp at he; subst he; rfl
    | none =>
      rw [hc] at he; simp only at he
      rcases List.mem_append.mp he with h | h
      · rcases List.mem_append.mp h with h1 | h1
        · simp at h1
        · simp at h1; subst h1; rfl
      · exact mappingStep_shape r env e h

theorem runCleanups_shape (r : Runner) (o : Options) (env : Env) (sharedI : Nat)
    (regs : List (Nat × String)) (k : Nat) :
    ∀ e ∈ runCleanups r o env sharedI regs k, isCleanupEvent e = true :=
  runCleanupsRev_shape r o env sharedI regs.reverse k

theorem runCleanups_run_mem (r : Runner) (o : Options) (env : Env) (sharedI : Nat)
    (regs : List (Nat × String)) (k : Nat) (j : Nat) (s : String) (h : (j, s) ∈ regs) :
    Event.cleanupRun j ∈ runCleanups r o env sharedI regs k :=
  runCleanupsRev_run_mem r o env sharedI regs.reverse k j s (List.mem_reverse.mpr h)

theorem runCleanups_reqs (r : Runner) (o : Options) (env : Env) (sharedI : Nat)
    (regs : List (Nat × String)) (k : Nat) :
    ∀ tag req out, Event.settingsPut tag req out ∈ runCleanups r o env sharedI regs k →
      ∃ b p, req = indexSettingsRequest b o p :=
  runCleanupsRev_reqs r o env sharedI regs.reverse k


/-! ## Run decomposition -/

theorem Run_shape (r : Runner) (env : Env) :
    (Run r env).trace = [] ∨
    ((Run r env).trace = (preflight r env).1 ∧ (∃ e, (Run r env).outcome = ROutcome.err e)) ∨
    (∃ i e, (runLoop r env).early = some (i, e) ∧
      (Run r env).trace = (preflight r env).1 ++ ((runLoop r env).evs ++
        runCleanups r (runOptions r) env i (runLoop r env).regs (runLoop r env).k) ∧
      (Run r env).outcome = ROutcome.err e) ∨
    ((runLoop r env).early = none ∧ (∃ e, (Run r env).outcome = ROutcome.fatal e) ∧
      (Run r env).trace = (preflight r env).1 ++ (runLoop r env).evs) ∨
    ((runLoop r env).early = none ∧
      (Run r env).trace = (preflight r env).1 ++ (((runLoop r env).evs ++ (runRead r).1 ++
        [Event.closeQueue, Event.waitWorkers]) ++
        runCleanups r (runOptions r) env ((runOptions r).Servers.length - 1)
          (runLoop r env).regs (runLoop r env).k) ∧
      (Run r env).counter = (runRead r).2 ∧
      (∀ m, (Run r env).outcome ≠ ROutcome.fatal m)) := by
  by_cases hv : r.ShowVersion = true
  · left; simp [Run, hv]
  · cases hc : (if r.CpuProfile ≠ "" then env.createCpuProfileErr else none) with
    | some e => left; simp [Run, hv, hc]
    | none =>
      by_cases hn : r.IndexName = ""
      · left; simp [Run, hv, hc, hn]
      · cases hp : (preflight r env).2 with
        | some e =>
          right; left
          refine ⟨?_, e, ?_⟩ <;> simp [Run, hv, hc, hn, hp]
        | none =>
          cases he : (serverLoopAux r (runOptions r) env
              (List.range (runOptions r).Servers.length) 0).early with
          | some p =>
            obtain ⟨i, e⟩ := p
            right; right; left
            refine ⟨i, e, he, ?_, ?_⟩ <;>
              simp [Run, stage2, runLoop, hv, hc, hn, hp, he]
          | none =>
            cases hg : (if r.FileGzipped = true then env.gzipHeaderErr else none) with
            | some e =>
              right; right; right; left
              refine ⟨he, ⟨e, ?_⟩, ?_⟩ <;>
                simp [Run, stage2, runLoop, hv, hc, hn, hp, he, hg]
            | none =>
              cases hm : (if r.MemProfile ≠ "" then env.memProfileErr else none) with
              | some e =>
                right; right; right; right
                refine ⟨he, ?_, ?_, ?_⟩ <;>
                  simp [Run, stage2, runLoop, runRead, hv, hc, hn, hp, he, hg, hm]
              | none =>
                right; right; right; right
                refine ⟨he, ?_, ?_, ?_⟩ <;>
                  simp [Run, stage2, runLoop, runRead, hv, hc, hn, hp, he, hg, hm]


/-! ## Event-kind exclusions -/

theorem loopEvent_kinds (e : Event) (h : isLoopEvent e = true) :
    enqOf e = none ∧ skipOf e = none ∧ logOf e = none ∧ e ≠ Event.closeQueue ∧
    isReadLineEvent e = false ∧ isEnqueueEvent e = false ∧
    (∀ j, e ≠ Event.cleanupRun j) := by
  cases e <;>
    simp_all [isLoopEvent, enqOf, skipOf, logOf, isReadLineEvent, isEnqueueEvent]

theorem cleanupEvent_kinds (e : Event) (h : isCleanupEvent e = true) :
    enqOf e = none ∧ skipOf e = none ∧ logOf e = none ∧ e ≠ Event.closeQueue ∧
    isReadLineEvent e = false ∧ isEnqueueEvent e = false ∧
    (∀ j, e ≠ Event.registerCleanup j) ∧
    (∀ req out, e ≠ Event.settingsPut PutTag.preloadRefresh req out) := by
  cases e with
  | settingsPut tag req out =>
    cases tag <;>
      simp_all [isCleanupEvent, enqOf, skipOf, logOf, isReadLineEvent, isEnqueueEvent]
  | _ =>
    simp_all [isCleanupEvent, enqOf, skipOf, logOf, isReadLineEvent, isEnqueueEvent]

theorem preflightEvent_kinds (e : Event) (h : isPreflightEvent e = true) :
    enqOf e = none ∧ skipOf e = none ∧ logOf e = none ∧ e ≠ Event.closeQueue ∧
    isReadLineEvent e = false ∧ isEnqueueEvent e = false ∧
    (∀ j, e ≠ Event.registerCleanup j) ∧ (∀ j, e ≠ Event.cleanupRun j) ∧
    (∀ tag req out, e ≠ Event.settingsPut tag req out) := by
  cases e <;>
    simp_all [isPreflightEvent, enqOf, skipOf, logOf, isReadLineEvent, isEnqueueEvent]

theorem readEvent_kinds (e : Event) (h : isReadEvent e = true) :
    e ≠ Event.closeQueue ∧ (∀ j, e ≠ Event.registerCleanup j) ∧
    (∀ j, e ≠ Event.cleanupRun j) ∧
    (∀ tag req out, e ≠ Event.settingsPut tag req out) := by
  cases e <;> simp_all [isReadEvent]


/-! ## Trace helper lemmas and claims C4, C7 -/

theorem trace_any_false (p : Event → Bool) (evs : List Event)
    (h : ∀ e ∈ evs, p e = false) : evs.any p = false := by
  rw [List.any_eq_false]
  intro e he
  simp [h e he]

theorem enqueuedLines_nil (evs : List Event) (h : ∀ e ∈ evs, enqOf e = none) :
    enqueuedLines evs = [] := List.filterMap_eq_nil_iff.mpr h

theorem skipEventLines_nil (evs : List Event) (h : ∀ e ∈ evs, skipOf e = none) :
    skipEventLines evs = [] := List.filterMap_eq_nil_iff.mpr h

theorem logSkipLines_nil (evs : List Event) (h : ∀ e ∈ evs, logOf e = none) :
    logSkipLines evs = [] := List.filterMap_eq_nil_iff.mpr h

theorem mem_enqueuedLines (q : String) (evs : List Event)
    (h : Event.enqueue q ∈ evs) : q ∈ enqueuedLines evs :=
  List.mem_filterMap.mpr ⟨Event.enqueue q, h, rfl⟩

theorem keptLines_no_blank (sb : Bool) (ls : List String) :
    ∀ t ∈ keptLines sb ls, t ≠ "" := by
  induction ls with
  | nil => intro t ht; cases ht
  | cons l rest ih =>
    intro t ht
    simp only [keptLines] at ht
    by_cases h1 : (trimSpace l).length = 0
    · rw [if_pos h1] at ht; exact ih t ht
    · by_cases h2 : (sb && !IsJSON (trimSpace l)) = true
      · rw [if_neg h1, if_pos h2] at ht; exact ih t ht
      · rw [if_neg h1, if_neg h2] at ht
        rcases List.mem_cons.mp ht with rfl | hh
        · intro heq; rw [heq] at h1; exact h1 rfl
        · exact ih t hh

theorem keptLines_isJSON (ls : List String) :
    ∀ t ∈ keptLines true ls, IsJSON t = true := by
  induction ls with
  | nil => intro t ht; cases ht
  | cons l rest ih =>
    intro t ht
    simp only [keptLines] at ht
    by_cases h1 : (trimSpace l).length = 0
    · rw [if_pos h1] at ht; exact ih t ht
    · by_cases h2 : (true && !IsJSON (trimSpace l)) = true
      · rw [if_neg h1, if_pos h2] at ht; exact ih t ht
      · rw [if_neg h1, if_neg h2] at ht
        simp only [Bool.true_and, Bool.not_eq_true'] at h2
        rcases List.mem_cons.mp ht with rfl | hh
        · simpa using h2
        · exact ih t hh

theorem selectServer_singleton (x : String) (p : Nat) :
    selectServer [x] p = x := by
  simp [selectServer, Nat.mod_one]

/-- C7: with version printing off and an empty index name, `Run` fails
with an error before any work starts: the trace is empty — no HTTP
request, no settings mutation, no enqueue. -/
theorem c7_empty_index_name_aborts_before_work (r : Runner) (env : Env)
    (hv : r.ShowVersion = false) (hn : r.IndexName = "") :
    isErr (Run r env).outcome = true ∧ (Run r env).trace = [] := by
  cases hc : (if r.CpuProfile ≠ "" then env.createCpuProfileErr else none) with
  | some e => constructor <;> simp [Run, hv, hc, isErr]
  | none => constructor <;> simp [Run, hv, hc, hn, isErr]

theorem c7_witness :
    emptyIndexRunner.ShowVersion = false ∧ emptyIndexRunner.IndexName = "" ∧
    (isErr (Run emptyIndexRunner happyEnv).outcome = true ∧
      (Run emptyIndexRunner happyEnv).trace = []) :=
  ⟨rfl, rfl, c7_empty_index_name_aborts_before_work emptyIndexRunner happyEnv rfl rfl⟩

/-- C4: if any preload `refresh_interval: -1` PUT fails — transport error
or HTTP status at least 400 — `Run` returns an error and its trace holds
no read-line and no enqueue event: it aborts before touching the input. -/
theorem c4_preload_failure_aborts_before_input (r : Runner) (env : Env)
    (req : HttpRequest) (out : HttpOutcome)
    (hmem : Event.settingsPut PutTag.preloadRefresh req out ∈ (Run r env).trace)
    (hfail : failed out = true) :
    isErr (Run r env).outcome = true ∧
    (Run r env).trace.any isReadLineEvent = false ∧
    (Run r env).trace.any isEnqueueEvent = false := by
  have hpfR : ∀ e ∈ (preflight r env).1, isReadLineEvent e = false :=
    fun e he => (preflightEvent_kinds e (preflight_shape r env e he)).2.2.2.2.1
  have hpfE : ∀ e ∈ (preflight r env).1, isEnqueueEvent e = false :=
    fun e he => (preflightEvent_kinds e (preflight_shape r env e he)).2.2.2.2.2.1
  have hlpR : ∀ e ∈ (runLoop r env).evs, isReadLineEvent e = false :=
    fun e he => (loopEvent_kinds e (serverLoop_shape r (runOptions r) env _ 0 e he)).2.2.2.2.1
  have hlpE : ∀ e ∈ (runLoop r env).evs, isEnqueueEvent e = false :=
    fun e he => (loopEvent_kinds e (serverLoop_shape r (runOptions r) env _ 0 e he)).2.2.2.2.2.1
  have hclR : ∀ j', ∀ e ∈ runCleanups r (runOptions r) env j' (runLoop r env).regs
      (runLoop r env).k, isReadLineEvent e = false :=
    fun j' e he => (cleanupEvent_kinds e
      (runCleanups_shape r (runOptions r) env j' _ _ e he)).2.2.2.2.1
  have hclE : ∀ j', ∀ e ∈ runCleanups r (runOptions r) env j' (runLoop r env).regs
      (runLoop r env).k, isEnqueueEvent e = false :=
    fun j' e he => (cleanupEvent_kinds e
      (runCleanups_shape r (runOptions r) env j' _ _ e he)).2.2.2.2.2.1
  have hnotpf : Event.settingsPut PutTag.preloadRefresh req out ∉ (preflight r env).1 :=
    fun h1 => absurd rfl
      ((preflightEvent_kinds _ (preflight_shape r env _ h1)).2.2.2.2.2.2.2.2 _ req out)
  rcases Run_shape r env with h | ⟨ht, _⟩ | ⟨j, e, he, ht, hout⟩ | ⟨he, ⟨m, hm⟩, ht⟩ |
    ⟨he, ht, _, _⟩
  · rw [h] at hmem; cases hmem
  · rw [ht] at hmem; exact absurd hmem hnotpf
  · refine ⟨by rw [hout]; rfl, ?_, ?_⟩
    · rw [ht]
      refine trace_any_false _ _ ?_
      intro ev hev
      rcases List.mem_append.mp hev with h1 | h1
      · exact hpfR ev h1
      · rcases List.mem_append.mp h1 with h2 | h2
        · exact hlpR ev h2
        · exact hclR j ev h2
    · rw [ht]
      refine trace_any_false _ _ ?_
      intro ev hev
      rcases List.mem_append.mp hev with h1 | h1
      · exact hpfE ev h1
      · rcases List.mem_append.mp h1 with h2 | h2
        · exact hlpE ev h2
        · exact hclE j ev h2
  · rw [ht] at hmem
    rcases List.mem_append.mp hmem with h1 | h1
    · exact absurd h1 hnotpf
    · have := serverLoop_preload_ok r (runOptions r) env
        (List.range (runOptions r).Servers.length) 0 he req out h1
      simp [this] at hfail
  · rw [ht] at hmem
    rcases List.mem_append.mp hmem with h1 | h1
    · exact absurd h1 hnotpf
    · rcases List.mem_append.mp h1 with h2 | h2
      · rcases List.mem_append.mp h2 with h3 | h3
        · rcases List.mem_append.mp h3 with h4 | h4
          · have := serverLoop_preload_ok r (runOptions r) env
              (List.range (runOptions r).Servers.length) 0 he req out h4
            simp [this] at hfail
          · exact absurd rfl ((readEvent_kinds _
              (readLoop_events_read r.SkipBroken r.Verbose r.FileLines _ h4)).2.2.2
                PutTag.preloadRefresh req out)
        · simp at h3
      · exact absurd rfl ((cleanupEvent_kinds _
          (runCleanups_shape r (runOptions r) env _ _ _ _ h2)).2.2.2.2.2.2.2 req out)

theorem c4_witness :
    Event.settingsPut PutTag.preloadRefresh failFirstReq failFirstOut ∈
      (Run oneServerRunner failFirstPutEnv).trace ∧
    failed failFirstOut = true ∧
    (isErr (Run oneServerRunner failFirstPutEnv).outcome = true ∧
      (Run oneServerRunner failFirstPutEnv).trace.any isReadLineEvent = false ∧
      (Run oneServerRunner failFirstPutEnv).trace.any isEnqueueEvent = false) :=
  ⟨by decide, by decide,
    c4_preload_failure_aborts_before_input oneServerRunner failFirstPutEnv
      failFirstReq failFirstOut (by decide) (by decide)⟩


/-! ## Claims C1 and C2 -/

/-- C1 (amended): for every server whose cleanup was registered (the
`defer` of line 138, placed right after the settings snapshot is captured
and before any of that server's settings are mutated), the cleanup runs
on every path on which `Run` returns — success or error, including a
fatal transport error while mutating any later server.  (The gzip-header
`log.Fatal` path exits the process without returning, so no deferred
function runs there.) -/
theorem c1_registered_cleanup_always_runs (r : Runner) (env : Env) (i : Nat)
    (hreg : Event.registerCleanup i ∈ (Run r env).trace)
    (hnf : isFatal (Run r env).outcome = false) :
    Event.cleanupRun i ∈ (Run r env).trace := by
  rcases Run_shape r env with h | ⟨ht, _⟩ | ⟨j, e, he, ht, _⟩ | ⟨he, ⟨m, hm⟩, ht⟩ |
    ⟨he, ht, _, _⟩
  · rw [h] at hreg; cases hreg
  · rw [ht] at hreg
    exact absurd rfl ((preflightEvent_kinds _ (preflight_shape r env _ hreg)).2.2.2.2.2.2.1 i)
  · rw [ht] at hreg ⊢
    rcases List.mem_append.mp hreg with h1 | h1
    · exact absurd rfl ((preflightEvent_kinds _ (preflight_shape r env _ h1)).2.2.2.2.2.2.1 i)
    · rcases List.mem_append.mp h1 with h2 | h2
      · obtain ⟨s, hs⟩ := serverLoop_reg r (runOptions r) env
          (List.range (runOptions r).Servers.length) 0 i h2
        exact List.mem_append.mpr (Or.inr (List.mem_append.mpr (Or.inr
          (runCleanups_run_mem r (runOptions r) env j (runLoop r env).regs
            (runLoop r env).k i s hs))))
      · exact absurd rfl ((cleanupEvent_kinds _
          (runCleanups_shape r (runOptions r) env j _ _ _ h2)).2.2.2.2.2.2.1 i)
  · rw [hm] at hnf; simp [isFatal] at hnf
  · rw [ht] at hreg ⊢
    rcases List.mem_append.mp hreg with h1 | h1
    · exact absurd rfl ((preflightEvent_kinds _ (preflight_shape r env _ h1)).2.2.2.2.2.2.1 i)
    · rcases List.mem_append.mp h1 with h2 | h2
      · rcases List.mem_append.mp h2 with h3 | h3
        · rcases List.mem_append.mp h3 with h4 | h4
          · obtain ⟨s, hs⟩ := serverLoop_reg r (runOptions r) env
              (List.range (runOptions r).Servers.length) 0 i h4
            exact List.mem_append.mpr (Or.inr (List.mem_append.mpr (Or.inr
              (runCleanups_run_mem r (runOptions r) env _ (runLoop r env).regs
                (runLoop r env).k i s hs))))
          · exact absurd rfl ((readEvent_kinds _
              (readLoop_events_read r.SkipBroken r.Verbose r.FileLines _ h4)).2.1 i)
        · simp at h3
      · exact absurd rfl ((cleanupEvent_kinds _
          (runCleanups_shape r (runOptions r) env _ _ _ _ h2)).2.2.2.2.2.2.1 i)

theorem c1_witness :
    Event.registerCleanup 0 ∈ (Run oneServerRunner happyEnv).trace ∧
    isFatal (Run oneServerRunner happyEnv).outcome = false ∧
    Event.cleanupRun 0 ∈ (Run oneServerRunner happyEnv).trace :=
  ⟨by decide, by decide,
    c1_registered_cleanup_always_runs oneServerRunner happyEnv 0 (by decide) (by decide)⟩

/-- C1 counterexample: on a concrete one-server run where everything
succeeds, the cleanup-registration event (the `defer` of line 138) comes
strictly before the first mutation of that server's settings (the
preload `refresh_interval: -1` PUT of line 151), contradicting the claim
that the cleanup is registered immediately after the settings are
mutated. -/
theorem c1_registration_precedes_mutation :
    firstIdx isRegisterEvent (Run oneServerRunner happyEnv).trace <
      firstIdx isPreloadPut (Run oneServerRunner happyEnv).trace ∧
    firstIdx isPreloadPut (Run oneServerRunner happyEnv).trace <
      (Run oneServerRunner happyEnv).trace.length := by
  decide

/-- C2: evaluation at the failing input.  Two servers, every request
succeeding, empty input: both deferred cleanups run, but both
`FlushIndex` calls target index 1 — the final value of the shared Go
loop variable captured by the closures — so server 0 is never flushed. -/
theorem c2_flush_targets_shared_loop_variable :
    (Run twoServerRunner happyEnv).trace.filter isFlushEvent
      = [Event.flushIndex 1, Event.flushIndex 1] ∧
    Event.cleanupRun 0 ∈ (Run twoServerRunner happyEnv).trace ∧
    Event.cleanupRun 1 ∈ (Run twoServerRunner happyEnv).trace := by
  decide


/-! ## Claim C8 -/

theorem not_enqueue_mem (q : String) (evs : List Event)
    (h : ∀ e ∈ evs, enqOf e = none) : Event.enqueue q ∉ evs :=
  fun hmem => Option.noConfusion (h _ hmem)

/-- C8: lines that trim to empty are ignored: once the read loop runs
(the trace reaches `close(queue)`), the enqueued lines are exactly the
kept (trimmed, non-blank, and — in skip mode — JSON-valid) lines and the
counter counts exactly those; and a blank line's (empty) trimmed content
is never enqueued on any run. -/
theorem c8_blank_lines_ignored (r : Runner) (env : Env) :
    (Event.closeQueue ∈ (Run r env).trace →
      enqueuedLines (Run r env).trace = keptLines r.SkipBroken r.FileLines ∧
      (Run r env).counter = (keptLines r.SkipBroken r.FileLines).length) ∧
    (∀ l : String, trimSpace l = "" → Event.enqueue (trimSpace l) ∉ (Run r env).trace) := by
  have hpfQ : ∀ e ∈ (preflight r env).1, enqOf e = none :=
    fun e he => (preflightEvent_kinds e (preflight_shape r env e he)).1
  have hpfC : ∀ e ∈ (preflight r env).1, e ≠ Event.closeQueue :=
    fun e he => (preflightEvent_kinds e (preflight_shape r env e he)).2.2.2.1
  have hlpQ : ∀ e ∈ (runLoop r env).evs, enqOf e = none :=
    fun e he => (loopEvent_kinds e (serverLoop_shape r (runOptions r) env _ 0 e he)).1
  have hlpC : ∀ e ∈ (runLoop r env).evs, e ≠ Event.closeQueue :=
    fun e he => (loopEvent_kinds e (serverLoop_shape r (runOptions r) env _ 0 e he)).2.2.2.1
  have hclQ : ∀ j', ∀ e ∈ runCleanups r (runOptions r) env j' (runLoop r env).regs
      (runLoop r env).k, enqOf e = none :=
    fun j' e he => (cleanupEvent_kinds e
      (runCleanups_shape r (runOptions r) env j' _ _ e he)).1
  have hclC : ∀ j', ∀ e ∈ runCleanups r (runOptions r) env j' (runLoop r env).regs
      (runLoop r env).k, e ≠ Event.closeQueue :=
    fun j' e he => (cleanupEvent_kinds e
      (runCleanups_shape r (runOptions r) env j' _ _ e he)).2.2.2.1
  rcases Run_shape r env with h | ⟨ht, _⟩ | ⟨j, e, he, ht, hout⟩ | ⟨he, ⟨m, hm⟩, ht⟩ |
    ⟨he, ht, hcnt, _⟩
  · constructor
    · intro hc; rw [h] at hc; cases hc
    · intro l _ hmem; rw [h] at hmem; cases hmem
  · constructor
    · intro hc; rw [ht] at hc; exact absurd rfl (hpfC _ hc)
    · intro l _ hmem; rw [ht] at hmem; exact not_enqueue_mem _ _ hpfQ hmem
  · constructor
    · intro hc; rw [ht] at hc
      rcases List.mem_append.mp hc with h1 | h1
      · exact absurd rfl (hpfC _ h1)
      · rcases List.mem_append.mp h1 with h2 | h2
        · exact absurd rfl (hlpC _ h2)
        · exact absurd rfl (hclC j _ h2)
    · intro l _ hmem; rw [ht] at hmem
      rcases List.mem_append.mp hmem with h1 | h1
      · exact not_enqueue_mem _ _ hpfQ h1
      · rcases List.mem_append.mp h1 with h2 | h2
        · exact not_enqueue_mem _ _ hlpQ h2
        · exact not_enqueue_mem _ _ (hclQ j) h2
  · constructor
    · intro hc; rw [ht] at hc
      rcases List.mem_append.mp hc with h1 | h1
      · exact absurd rfl (hpfC _ h1)
      · exact absurd rfl (hlpC _ h1)
    · intro l _ hmem; rw [ht] at hmem
      rcases List.mem_append.mp hmem with h1 | h1
      · exact not_enqueue_mem _ _ hpfQ h1
      · exact not_enqueue_mem _ _ hlpQ h1
  · have henq : enqueuedLines (Run r env).trace = keptLines r.SkipBroken r.FileLines := by
      rw [ht]
      show List.filterMap enqOf _ = _
      rw [List.filterMap_append, List.filterMap_append, List.filterMap_append,
        List.filterMap_append]
      rw [show List.filterMap enqOf (preflight r env).1 = [] from enqueuedLines_nil _ hpfQ]
      rw [show List.filterMap enqOf (runLoop r env).evs = [] from enqueuedLines_nil _ hlpQ]
      rw [show List.filterMap enqOf (runCleanups r (runOptions r) env
          ((runOptions r).Servers.length - 1) (runLoop r env).regs (runLoop r env).k) = []
        from enqueuedLines_nil _ (hclQ _)]
      rw [show List.filterMap enqOf [Event.closeQueue, Event.waitWorkers] = [] from rfl]
      rw [show List.filterMap enqOf (runRead r).1 = keptLines r.SkipBroken r.FileLines from
        readLoop_enqueued r.SkipBroken r.Verbose r.FileLines]
      simp
    constructor
    · intro _
      refine ⟨henq, ?_⟩
      rw [hcnt]
      exact readLoop_count r.SkipBroken r.Verbose r.FileLines
    · intro l heq hmem
      have : trimSpace l ∈ enqueuedLines (Run r env).trace := mem_enqueuedLines _ _ hmem
      rw [henq] at this
      exact keptLines_no_blank r.SkipBroken r.FileLines _ this heq

theorem c8_witness :
    Event.closeQueue ∈ (Run blankRunner happyEnv).trace ∧
    enqueuedLines (Run blankRunner happyEnv).trace = ["1", "2"] ∧
    (Run blankRunner happyEnv).counter = 2 ∧
    trimSpace "   " = "" ∧
    Event.enqueue (trimSpace "   ") ∉ (Run blankRunner happyEnv).trace := by
  have h := c8_blank_lines_ignored blankRunner happyEnv
  have h1 := h.1 (by decide)
  refine ⟨by decide, ?_, ?_, by decide, h.2 "   " (by decide)⟩
  · rw [h1.1]; decide
  · rw [h1.2]; decide


/-! ## Claim C5 -/

/-- C5 (amended): in skip-broken mode every enqueued document is valid
JSON (lines failing to parse are discarded without being counted or
delivered), and once the read loop runs the counter equals the number of
kept lines, the skipped lines are exactly the non-blank non-JSON lines,
and with verbosity on each of them is logged; for the concrete stream of
ten valid JSON lines plus one line `not json`, exactly TEN documents are
processed with one skip logged (not nine as the claim states). -/
theorem c5_skip_broken_discards_malformed (r : Runner) (env : Env)
    (hsb : r.SkipBroken = true) :
    (∀ q, Event.enqueue q ∈ (Run r env).trace → IsJSON q = true) ∧
    (Event.closeQueue ∈ (Run r env).trace →
      (Run r env).counter = (keptLines true r.FileLines).length ∧
      skipEventLines (Run r env).trace = droppedLines r.FileLines ∧
      (r.Verbose = true → logSkipLines (Run r env).trace = droppedLines r.FileLines)) := by
  have hpfQ : ∀ e ∈ (preflight r env).1, enqOf e = none :=
    fun e he => (preflightEvent_kinds e (preflight_shape r env e he)).1
  have hpfS : ∀ e ∈ (preflight r env).1, skipOf e = none :=
    fun e he => (preflightEvent_kinds e (preflight_shape r env e he)).2.1
  have hpfL : ∀ e ∈ (preflight r env).1, logOf e = none :=
    fun e he => (preflightEvent_kinds e (preflight_shape r env e he)).2.2.1
  have hpfC : ∀ e ∈ (preflight r env).1, e ≠ Event.closeQueue :=
    fun e he => (preflightEvent_kinds e (preflight_shape r env e he)).2.2.2.1
  have hlpQ : ∀ e ∈ (runLoop r env).evs, enqOf e = none :=
    fun e he => (loopEvent_kinds e (serverLoop_shape r (runOptions r) env _ 0 e he)).1
  have hlpS : ∀ e ∈ (runLoop r env).evs, skipOf e = none :=
    fun e he => (loopEvent_kinds e (serverLoop_shape r (runOptions r) env _ 0 e he)).2.1
  have hlpL : ∀ e ∈ (runLoop r env).evs, logOf e = none :=
    fun e he => (loopEvent_kinds e (serverLoop_shape r (runOptions r) env _ 0 e he)).2.2.1
  have hlpC : ∀ e ∈ (runLoop r env).evs, e ≠ Event.closeQueue :=
    fun e he => (loopEvent_kinds e (serverLoop_shape r (runOptions r) env _ 0 e he)).2.2.2.1
  have hclQ : ∀ j', ∀ e ∈ runCleanups r (runOptions r) env j' (runLoop r env).regs
      (runLoop r env).k, enqOf e = none :=
    fun j' e he => (cleanupEvent_kinds e
      (runCleanups_shape r (runOptions r) env j' _ _ e he)).1
  have hclS : ∀ j', ∀ e ∈ runCleanups r (runOptions r) env j' (runLoop r env).regs
      (runLoop r env).k, skipOf e = none :=
    fun j' e he => (cleanupEvent_kinds e
      (runCleanups_shape r (runOptions r) env j' _ _ e he)).2.1
  have hclL : ∀ j', ∀ e ∈ runCleanups r (runOptions r) env j' (runLoop r env).regs
      (runLoop r env).k, logOf e = none :=
    fun j' e he => (cleanupEvent_kinds e
      (runCleanups_shape r (runOptions r) env j' _ _ e he)).2.2.1
  have hclC : ∀ j', ∀ e ∈ runCleanups r (runOptions r) env j' (runLoop r env).regs
      (runLoop r env).k, e ≠ Event.closeQueue :=
    fun j' e he => (cleanupEvent_kinds e
      (runCleanups_shape r (runOptions r) env j' _ _ e he)).2.2.2.1
  have hkept : ∀ q, q ∈ keptLines r.SkipBroken r.FileLines → IsJSON q = true := by
    rw [hsb]; exact fun q hq => keptLines_isJSON r.FileLines q hq
  rcases Run_shape r env with h | ⟨ht, _⟩ | ⟨j, e, he, ht, hout⟩ | ⟨he, ⟨m, hm⟩, ht⟩ |
    ⟨he, ht, hcnt, _⟩
  · constructor
    · intro q hmem; rw [h] at hmem; cases hmem
    · intro hc; rw [h] at hc; cases hc
  · constructor
    · intro q hmem; rw [ht] at hmem; exact absurd hmem (not_enqueue_mem _ _ hpfQ)
    · intro hc; rw [ht] at hc; exact absurd rfl (hpfC _ hc)
  · constructor
    · intro q hmem; rw [ht] at hmem
      rcases List.mem_append.mp hmem with h1 | h1
      · exact absurd h1 (not_enqueue_mem _ _ hpfQ)
      · rcases List.mem_append.mp h1 with h2 | h2
        · exact absurd h2 (not_enqueue_mem _ _ hlpQ)
        · exact absurd h2 (not_enqueue_mem _ _ (hclQ j))
    · intro hc; rw [ht] at hc
      rcases List.mem_append.mp hc with h1 | h1
      · exact absurd rfl (hpfC _ h1)
      · rcases List.mem_append.mp h1 with h2 | h2
        · exact absurd rfl (hlpC _ h2)
        · exact absurd rfl (hclC j _ h2)
  · constructor
    · intro q hmem; rw [ht] at hmem
      rcases List.mem_append.mp hmem with h1 | h1
      · exact absurd h1 (not_enqueue_mem _ _ hpfQ)
      · exact absurd h1 (not_enqueue_mem _ _ hlpQ)
    · intro hc; rw [ht] at hc
      rcases List.mem_append.mp hc with h1 | h1
      · exact absurd rfl (hpfC _ h1)
      · exact absurd rfl (hlpC _ h1)
  · have henq : enqueuedLines (Run r env).trace = keptLines r.SkipBroken r.FileLines := by
      rw [ht]
      show List.filterMap enqOf _ = _
      rw [List.filterMap_append, List.filterMap_append, List.filterMap_append,
        List.filterMap_append]
      rw [show List.filterMap enqOf (preflight r env).1 = [] from enqueuedLines_nil _ hpfQ]
      rw [show List.filterMap enqOf (runLoop r env).evs = [] from enqueuedLines_nil _ hlpQ]
      rw [show List.filterMap enqOf (runCleanups r (runOptions r) env
          ((runOptions r).Servers.length - 1) (runLoop r env).regs (runLoop r env).k) = []
        from enqueuedLines_nil _ (hclQ _)]
      rw [show List.filterMap enqOf [Event.closeQueue, Event.waitWorkers] = [] from rfl]
      rw [show List.filterMap enqOf (runRead r).1 = keptLines r.SkipBroken r.FileLines from
        readLoop_enqueued r.SkipBroken r.Verbose r.FileLines]
      simp
    have hskip : skipEventLines (Run r env).trace = droppedLines r.FileLines := by
      rw [ht]
      show List.filterMap skipOf _ = _
      rw [List.filterMap_append, List.filterMap_append, List.filterMap_append,
        List.filterMap_append]
      rw [show List.filterMap skipOf (preflight r env).1 = [] from skipEventLines_nil _ hpfS]
      rw [show List.filterMap skipOf (runLoop r env).evs = [] from skipEventLines_nil _ hlpS]
      rw [show List.filterMap skipOf (runCleanups r (runOptions r) env
          ((runOptions r).Servers.length - 1) (runLoop r env).regs (runLoop r env).k) = []
        from skipEventLines_nil _ (hclS _)]
      rw [show List.filterMap skipOf [Event.closeQueue, Event.waitWorkers] = [] from rfl]
      rw [show List.filterMap skipOf (runRead r).1 = droppedLines r.FileLines from
        readLoop_skips r.SkipBroken r.Verbose r.FileLines hsb]
      simp
    constructor
    · intro q hmem
      have : q ∈ enqueuedLines (Run r env).trace := mem_enqueuedLines _ _ hmem
      rw [henq] at this
      exact hkept q this
    · intro _
      refine ⟨?_, hskip, ?_⟩
      · rw [hcnt]
        rw [show (runRead r).2 = (keptLines r.SkipBroken r.FileLines).length from
          readLoop_count r.SkipBroken r.Verbose r.FileLines, hsb]
      · intro hv
        rw [ht]
        show List.filterMap logOf _ = _
        rw [List.filterMap_append, List.filterMap_append, List.filterMap_append,
          List.filterMap_append]
        rw [show List.filterMap logOf (preflight r env).1 = [] from logSkipLines_nil _ hpfL]
        rw [show List.filterMap logOf (runLoop r env).evs = [] from logSkipLines_nil _ hlpL]
        rw [show List.filterMap logOf (runCleanups r (runOptions r) env
            ((runOptions r).Servers.length - 1) (runLoop r env).regs (runLoop r env).k) = []
          from logSkipLines_nil _ (hclL _)]
        rw [show List.filterMap logOf [Event.closeQueue, Event.waitWorkers] = [] from rfl]
        rw [show List.filterMap logOf (runRead r).1 = droppedLines r.FileLines from
          readLoop_logs r.SkipBroken r.Verbose r.FileLines hsb hv]
        simp

/-- C5 counterexample: for the input stream of ten valid JSON lines plus
one line `not json`, with skip-broken and verbose on and every request
succeeding, exactly TEN documents are processed (counted and enqueued),
not nine, with exactly one skip logged. -/
theorem c5_ten_processed_not_nine :
    (Run skipRunner happyEnv).counter = 10 ∧
    ((Run skipRunner happyEnv).counter = 9 → False) ∧
    skipEventLines (Run skipRunner happyEnv).trace = ["not json"] ∧
    logSkipLines (Run skipRunner happyEnv).trace = ["not json"] := by
  refine ⟨by decide, ?_, by decide, by decide⟩
  intro h
  rw [show (Run skipRunner happyEnv).counter = 10 from by decide] at h
  cases h

theorem c5_witness :
    skipRunner.SkipBroken = true ∧
    Event.closeQueue ∈ (Run skipRunner happyEnv).trace ∧
    (Run skipRunner happyEnv).counter = (keptLines true skipRunner.FileLines).length ∧
    skipEventLines (Run skipRunner happyEnv).trace = droppedLines skipRunner.FileLines := by
  have h := (c5_skip_broken_discards_malformed skipRunner happyEnv rfl).2 (by decide)
  exact ⟨rfl, by decide, h.1, h.2.1⟩


/-! ## Claims C9 and C10 -/

/-- C9: with an empty configured server list `Run` proceeds on the single
default endpoint: the option set becomes `["http://localhost:9200"]` and
every settings request in the trace targets that endpoint's URL. -/
theorem c9_empty_servers_use_default_endpoint (r : Runner) (env : Env)
    (h : r.Servers = []) :
    (runOptions r).Servers = ["http://localhost:9200"] ∧
    (∀ tag req out, Event.settingsPut tag req out ∈ (Run r env).trace →
      req.url = "http://localhost:9200" ++ "/" ++ r.IndexName ++ "/_settings") := by
  have hs : (runOptions r).Servers = ["http://localhost:9200"] := by
    simp [runOptions, runServers, h]
  refine ⟨hs, ?_⟩
  intro tag req out hmem
  have hnotpf : ∀ tg rq o2, Event.settingsPut tg rq o2 ∉ (preflight r env).1 :=
    fun tg rq o2 h1 => absurd rfl
      ((preflightEvent_kinds _ (preflight_shape r env _ h1)).2.2.2.2.2.2.2.2 tg rq o2)
  have hreq : ∃ b p, req = indexSettingsRequest b (runOptions r) p := by
    rcases Run_shape r env with hh | ⟨ht, _⟩ | ⟨j, e, he, ht, _⟩ | ⟨he, ⟨m, hm⟩, ht⟩ |
      ⟨he, ht, _, _⟩
    · rw [hh] at hmem; cases hmem
    · rw [ht] at hmem; exact absurd hmem (hnotpf tag req out)
    · rw [ht] at hmem
      rcases List.mem_append.mp hmem with h1 | h1
      · exact absurd h1 (hnotpf tag req out)
      · rcases List.mem_append.mp h1 with h2 | h2
        · exact serverLoop_reqs r (runOptions r) env _ 0 tag req out h2
        · exact runCleanups_reqs r (runOptions r) env _ _ _ tag req out h2
    · rw [ht] at hmem
      rcases List.mem_append.mp hmem with h1 | h1
      · exact absurd h1 (hnotpf tag req out)
      · exact serverLoop_reqs r (runOptions r) env _ 0 tag req out h1
    · rw [ht] at hmem
      rcases List.mem_append.mp hmem with h1 | h1
      · exact absurd h1 (hnotpf tag req out)
      · rcases List.mem_append.mp h1 with h2 | h2
        · rcases List.mem_append.mp h2 with h3 | h3
          · rcases List.mem_append.mp h3 with h4 | h4
            · exact serverLoop_reqs r (runOptions r) env _ 0 tag req out h4
            · exact absurd rfl ((readEvent_kinds _
                (readLoop_events_read r.SkipBroken r.Verbose r.FileLines _ h4)).2.2.2
                  tag req out)
          · simp at h3
        · exact runCleanups_reqs r (runOptions r) env _ _ _ tag req out h2
  obtain ⟨b, p, rfl⟩ := hreq
  show selectServer (runOptions r).Servers p ++ "/" ++ (runOptions r).Index ++ "/_settings"
    = "http://localhost:9200" ++ "/" ++ r.IndexName ++ "/_settings"
  rw [hs, selectServer_singleton]
  rfl

theorem c9_witness :
    noServersRunner.Servers = [] ∧
    (runOptions noServersRunner).Servers = ["http://localhost:9200"] ∧
    c9req.url = "http://localhost:9200" ++ "/" ++ noServersRunner.IndexName
      ++ "/_settings" ∧
    (Run noServersRunner happyEnv).outcome = ROutcome.ok := by
  have h := c9_empty_servers_use_default_endpoint noServersRunner happyEnv rfl
  refine ⟨rfl, h.1, ?_, by decide⟩
  exact h.2 PutTag.preloadRefresh c9req (HttpOutcome.response 200 "") (by decide)

/-- C10: the request assembled by `indexSettingsRequest` carries a basic
auth header exactly when both the configured username and password are
non-empty; with either credential empty the request carries no
authentication, and when it does carry one it is the configured pair. -/
theorem c10_basic_auth_iff_both_credentials (body : String) (o : Options) (pick : Nat) :
    ((indexSettingsRequest body o pick).basicAuth ≠ none ↔
      (o.Username ≠ "" ∧ o.Password ≠ "")) ∧
    ((indexSettingsRequest body o pick).basicAuth = none ∨
      (indexSettingsRequest body o pick).basicAuth = some (o.Username, o.Password)) := by
  by_cases hu : o.Username = "" <;> by_cases hp : o.Password = "" <;>
    simp [indexSettingsRequest, hu, hp]

theorem c10_witness :
    (indexSettingsRequest preloadRefreshBody authOptions 0).basicAuth ≠ none ∧
    (indexSettingsRequest preloadRefreshBody userOnlyOptions 0).basicAuth = none :=
  ⟨(c10_basic_auth_iff_both_credentials preloadRefreshBody authOptions 0).1.mpr
      ⟨by decide, by decide⟩,
    by decide⟩


/-! ## Worker-pool load lemmas -/

theorem wload_sum_set (ws' : WState) (L : List WState) :
    ∀ (w : Nat) (ws : WState), L.get? w = some ws →
      ((L.set w ws').map wload).sum + wload ws = (L.map wload).sum + wload ws' := by
  induction L with
  | nil => intro w ws hw; cases hw
  | cons a tl ih =>
    intro w ws hw
    cases w with
    | zero =>
      simp only [List.get?] at hw
      injection hw with hw
      subst hw
      simp only [List.set, List.map_cons, List.sum_cons]
      abel
    | succ w' =>
      simp only [List.get?] at hw
      simp only [List.set, List.map_cons, List.sum_cons]
      have := ih w' ws hw
      calc wload a + ((tl.set w' ws').map wload).sum + wload ws
          = wload a + (((tl.set w' ws').map wload).sum + wload ws) := by abel
        _ = wload a + ((tl.map wload).sum + wload ws') := by rw [this]
        _ = wload a + (tl.map wload).sum + wload ws' := by abel

theorem get?_mem_wstate (L : List WState) (w : Nat) (ws : WState)
    (h : L.get? w = some ws) : ws ∈ L := List.get?_mem h

theorem wload_deliver (ws : WState) (line : String) :
    wload { ws with batch := ws.batch ++ [line] } = wload ws + {line} := by
  simp only [wload, ← Multiset.coe_add]
  rw [show ({line} : Multiset String) = (([line] : List String) : Multiset String) from rfl]
  abel

theorem wload_flush (ws : WState) :
    wload { ws with batch := ([] : List String), sent := ws.sent ++ [ws.batch] } = wload ws := by
  simp only [wload, List.flatten_append, ← Multiset.coe_add, List.flatten_cons,
    List.flatten_nil, List.append_nil, Multiset.coe_nil]
  abel

theorem wload_drain (ws : WState) :
    wload { batch := ([] : List String)
            sent := if ws.batch.isEmpty then ws.sent else ws.sent ++ [ws.batch]
            terminated := true } = wload ws := by
  cases hb : ws.batch.isEmpty with
  | true =>
    have hbe : ws.batch = [] := List.isEmpty_iff.mp hb
    simp [wload, hbe]
  | false =>
    simp only [hb, Bool.false_eq_true, if_false]
    exact wload_flush ws


/-! ## Worker-pool invariant -/

theorem step_inv (L0 : List String) (n bs : Nat) (s : Sys) (l : SLabel) (s' : Sys)
    (h : step bs s l = some s') (hinv : SysInv L0 n s) : SysInv L0 n s' := by
  obtain ⟨hlen, hload, hcnt, hcp, hterm, hret⟩ := hinv
  cases l with
  | deliver w =>
    simp only [step] at h
    cases hp : s.pending with
    | nil => rw [hp] at h; cases h
    | cons line rest =>
      rw [hp] at h
      simp only at h
      by_cases hcl : s.closed = true
      · rw [if_pos hcl] at h; cases h
      · rw [if_neg hcl] at h
        cases hgw : s.workers.get? w with
        | none => rw [hgw] at h; cases h
        | some ws =>
          rw [hgw] at h
          simp only at h
          by_cases htm : ws.terminated = true
          · rw [if_pos htm] at h; cases h
          · rw [if_neg htm] at h
            by_cases hbs : bs ≤ ws.batch.length
            · rw [if_pos hbs] at h; cases h
            · rw [if_neg hbs] at h
              injection h with h
              subst h
              have hset := wload_sum_set { ws with batch := ws.batch ++ [line] }
                s.workers w ws hgw
              rw [wload_deliver] at hset
              have hsum : ((s.workers.set w
                  { ws with batch := ws.batch ++ [line] }).map wload).sum
                  = (s.workers.map wload).sum + {line} := by
                refine add_right_cancel (b := wload ws) ?_
                rw [hset]; abel
              unfold load at hload
              rw [hp] at hload
              refine ⟨by simp [List.length_set, hlen], ?_, ?_, ?_, ?_, ?_⟩
              · show (rest : Multiset String) + _ = _
                rw [hsum, ← hload]
                show (rest : Multiset String) + ((s.workers.map wload).sum + {line})
                  = ((line :: rest : List String) : Multiset String)
                    + (s.workers.map wload).sum
                rw [← Multiset.cons_coe, ← Multiset.singleton_add]
                abel
              · show s.counter + 1 + rest.length = L0.length
                rw [hp] at hcnt
                simp only [List.length_cons] at hcnt
                omega
              · intro hc; exact absurd hc hcl
              · intro ws2 hmem ht2
                rcases List.mem_or_eq_of_mem_set hmem with hm | hm
                · exact hterm ws2 hm ht2
                · subst hm; exact absurd ht2 htm
              · intro hr; exact absurd (hret hr).1 hcl
  | flushSent w =>
    simp only [step] at h
    cases hgw : s.workers.get? w with
    | none => rw [hgw] at h; cases h
    | some ws =>
      rw [hgw] at h
      simp only at h
      by_cases hg : (ws.terminated || decide (ws.batch.length ≠ bs) || decide (bs = 0)) = true
      · rw [if_pos hg] at h; cases h
      · rw [if_neg hg] at h
        injection h with h
        subst h
        simp only [Bool.or_eq_true, decide_eq_true_eq, not_or] at hg
        obtain ⟨⟨htm, _⟩, _⟩ := hg
        have hset := wload_sum_set
          { ws with batch := ([] : List String), sent := ws.sent ++ [ws.batch] }
          s.workers w ws hgw
        rw [wload_flush] at hset
        have hsum := add_right_cancel hset
        refine ⟨by simp [List.length_set, hlen], ?_, hcnt, hcp, ?_, ?_⟩
        · show (s.pending : Multiset String) + _ = _
          rw [hsum]; exact hload
        · intro ws2 hmem ht2
          rcases List.mem_or_eq_of_mem_set hmem with hm | hm
          · exact hterm ws2 hm ht2
          · subst hm
            exact absurd ht2 (by simpa using htm)
        · intro hr
          exact absurd ((hret hr).2 ws (List.get?_mem hgw)) (by simpa using htm)
  | drain w =>
    simp only [step] at h
    by_cases hcl : s.closed = true
    · rw [hcl] at h
      simp only [Bool.not_true, Bool.false_eq_true, if_false] at h
      cases hgw : s.workers.get? w with
      | none => rw [hgw] at h; cases h
      | some ws =>
        rw [hgw] at h
        simp only at h
        by_cases htm : ws.terminated = true
        · rw [if_pos htm] at h; cases h
        · rw [if_neg htm] at h
          injection h with h
          subst h
          have hset := wload_sum_set
            { batch := ([] : List String)
              sent := if ws.batch.isEmpty then ws.sent else ws.sent ++ [ws.batch]
              terminated := true } s.workers w ws hgw
          rw [wload_drain] at hset
          have hsum := add_right_cancel hset
          refine ⟨by simp [List.length_set, hlen], ?_, hcnt, ?_, ?_, ?_⟩
          · show (s.pending : Multiset String) + _ = _
            rw [hsum]; exact hload
          · intro _; exact hcp hcl
          · intro ws2 hmem _
            rcases List.mem_or_eq_of_mem_set hmem with hm | hm
            · exact hterm ws2 hm (by assumption)
            · rw [hm]
          · intro hr
            exact absurd ((hret hr).2 ws (List.get?_mem hgw)) htm
    · rw [show s.closed = false from by revert hcl; cases s.closed <;> simp] at h
      simp only [Bool.not_false, if_true] at h
      cases h
  | closeQ =>
    simp only [step] at h
    by_cases hg : (s.closed || !s.pending.isEmpty) = true
    · rw [if_pos hg] at h; cases h
    · rw [if_neg hg] at h
      injection h with h
      subst h
      simp only [Bool.or_eq_true, not_or, Bool.not_eq_true, Bool.not_eq_false] at hg
      obtain ⟨hclF, hpe⟩ := hg
      have hpnil : s.pending = [] := List.isEmpty_iff.mp (by simpa using hpe)
      refine ⟨hlen, hload, hcnt, fun _ => hpnil, hterm, ?_⟩
      · intro hr
        exact absurd (hret hr).1 (by simp [hclF])
  | ret =>
    simp only [step] at h
    by_cases hg : (s.closed && s.workers.all (fun w => w.terminated) && !s.returned) = true
    · rw [if_pos hg] at h
      injection h with h
      subst h
      simp only [Bool.and_eq_true, Bool.not_eq_true] at hg
      obtain ⟨⟨hcl, hall⟩, _⟩ := hg
      refine ⟨hlen, hload, hcnt, hcp, hterm, ?_⟩
      intro _
      refine ⟨hcl, ?_⟩
      intro ws hws
      exact (List.all_eq_true.mp hall) ws hws
    · rw [if_neg hg] at h; cases h

theorem runSys_inv (L0 : List String) (n bs : Nat) :
    ∀ (ls : List SLabel) (s s' : Sys), runSys bs s ls = some s' →
      SysInv L0 n s → SysInv L0 n s' := by
  intro ls
  induction ls with
  | nil =>
    intro s s' h hinv
    simp only [runSys] at h
    injection h with h
    subst h; exact hinv
  | cons l rest ih =>
    intro s s' h hinv
    simp only [runSys] at h
    cases hs : step bs s l with
    | none => rw [hs] at h; cases h
    | some s1 =>
      rw [hs] at h
      simp only at h
      exact ih s1 s' h (step_inv L0 n bs s l s1 hs hinv)

theorem init_inv (L0 : List String) (n : Nat) : SysInv L0 n (initSys L0 n) := by
  refine ⟨by simp [initSys], ?_, by simp [initSys], ?_, ?_, ?_⟩
  · show (L0 : Multiset String) +
      ((List.replicate n { batch := [], sent := [], terminated := false } : List WState).map
        wload).sum = (L0 : Multiset String)
    rw [List.map_replicate]
    rw [show wload { batch := [], sent := [], terminated := false } = 0 from rfl]
    rw [List.sum_replicate]
    simp
  · intro h; simp [initSys] at h
  · intro ws hws _
    have := List.eq_of_mem_replicate hws
    rw [this]
  · intro h; simp [initSys] at h

theorem sum_wload_eq_sent (L : List WState) (h : ∀ ws ∈ L, ws.batch = []) :
    (L.map wload).sum =
      (((L.map fun ws => ws.sent.flatten).flatten : List String) : Multiset String) := by
  induction L with
  | nil => rfl
  | cons a tl ih =>
    simp only [List.map_cons, List.sum_cons, List.flatten_cons]
    rw [ih (fun ws hws => h ws (List.mem_cons_of_mem a hws))]
    rw [show wload a = (a.sent.flatten : Multiset String) from by
      simp [wload, h a (List.mem_cons_self a tl)]]
    rw [← Multiset.coe_add]

/-- Everything true of a returned system state: closed queue, all
workers terminated, worker count preserved, the multiset of documents
handed to the transport client equal to the input, and the counter equal
to the input length. -/
theorem returned_state_facts (lines : List String) (n bs : Nat) (ls : List SLabel)
    (s : Sys) (h : runSys bs (initSys lines n) ls = some s) (hret : s.returned = true) :
    s.closed = true ∧ (∀ ws ∈ s.workers, ws.terminated = true) ∧
    s.workers.length = n ∧
    (sentDocs s : Multiset String) = (lines : Multiset String) ∧
    s.counter = lines.length := by
  have hinv := runSys_inv lines n bs ls (initSys lines n) s h (init_inv lines n)
  obtain ⟨hlen, hload, hcnt, hcp, hterm, hretf⟩ := hinv
  obtain ⟨hcl, hall⟩ := hretf hret
  have hpend := hcp hcl
  have hbatches : ∀ ws ∈ s.workers, ws.batch = [] :=
    fun ws hws => hterm ws hws (hall ws hws)
  have hsent : (sentDocs s : Multiset String) = (lines : Multiset String) := by
    rw [← hload]
    unfold load sentDocs
    rw [hpend, sum_wload_eq_sent s.workers hbatches]
    simp
  refine ⟨hcl, hall, hlen, hsent, ?_⟩
  rw [hpend] at hcnt
  simpa using hcnt


/-! ## Claims C3 and C6 -/

/-- C3: for every schedule of the modelled producer / worker-pool system
(Worker behaviour modelled from the spec), if the dispatcher has
returned, then the queue was closed, every one of the `n` workers has
terminated, and the multiset of documents handed to the transport client
equals the multiset of enqueued lines — every line in exactly one batch,
none lost, none duplicated, final partial batches included. -/
theorem c3_join_before_return_no_loss_no_dup (lines : List String) (n bs : Nat)
    (ls : List SLabel) (s : Sys)
    (h : runSys bs (initSys lines n) ls = some s) (hret : s.returned = true) :
    s.closed = true ∧
    s.workers.all (fun ws => ws.terminated) = true ∧
    s.workers.length = n ∧
    (sentDocs s : Multiset String) = (lines : Multiset String) := by
  obtain ⟨hcl, hall, hlen, hsent, _⟩ := returned_state_facts lines n bs ls s h hret
  refine ⟨hcl, ?_, hlen, hsent⟩
  rw [List.all_eq_true]
  intro ws hws
  simp [hall ws hws]

theorem c3_witness :
    runSys 2 (initSys c3lines 2) c3labels = some c3state ∧
    (c3state.closed = true ∧
      c3state.workers.all (fun ws => ws.terminated) = true ∧
      c3state.workers.length = 2 ∧
      (sentDocs c3state : Multiset String) = (c3lines : Multiset String)) :=
  ⟨by decide,
    c3_join_before_return_no_loss_no_dup c3lines 2 2 c3labels c3state
      (by decide) (by decide)⟩

/-- C6 (amended): the document counter is owned by the producer: the
only step of the system that changes it is the rendezvous delivery,
whose `counter++` (line 201) runs in `Run`'s own goroutine; no Worker
step (batch flush or drain) ever modifies it, so no concurrent-increment
discipline is involved; and on return the counter equals both the number
of input lines and the total number of documents handed to the transport
client. -/
theorem c6_counter_owned_by_producer (bs : Nat) :
    (∀ (s : Sys) (l : SLabel) (s' : Sys), step bs s l = some s' →
      s'.counter ≠ s.counter → ∃ w, l = SLabel.deliver w) ∧
    (∀ (lines : List String) (n : Nat) (ls : List SLabel) (s : Sys),
      runSys bs (initSys lines n) ls = some s → s.returned = true →
      s.counter = lines.length ∧ s.counter = (sentDocs s).length) := by
  constructor
  · intro s l s' h hne
    cases l with
    | deliver w => exact ⟨w, rfl⟩
    | flushSent w =>
      exfalso; apply hne
      simp only [step] at h
      cases hgw : s.workers.get? w with
      | none => rw [hgw] at h; cases h
      | some ws =>
        rw [hgw] at h
        simp only at h
        by_cases hg : (ws.terminated || decide (ws.batch.length ≠ bs) || decide (bs = 0)) = true
        · rw [if_pos hg] at h; cases h
        · rw [if_neg hg] at h
          injection h with h
          subst h; rfl
    | drain w =>
      exfalso; apply hne
      simp only [step] at h
      by_cases hcl : s.closed = true
      · rw [hcl] at h
        simp only [Bool.not_true, Bool.false_eq_true, if_false] at h
        cases hgw : s.workers.get? w with
        | none => rw [hgw] at h; cases h
        | some ws =>
          rw [hgw] at h
          simp only at h
          by_cases htm : ws.terminated = true
          · rw [if_pos htm] at h; cases h
          · rw [if_neg htm] at h
            injection h with h
            subst h; rfl
      · rw [show s.closed = false from by revert hcl; cases s.closed <;> simp] at h
        simp only [Bool.not_false, if_true] at h
        cases h
    | closeQ =>
      exfalso; apply hne
      simp only [step] at h
      by_cases hg : (s.closed || !s.pending.isEmpty) = true
      · rw [if_pos hg] at h; cases h
      · rw [if_neg hg] at h
        injection h with h
        subst h; rfl
    | ret =>
      exfalso; apply hne
      simp only [step] at h
      by_cases hg : (s.closed && s.workers.all (fun w => w.terminated) && !s.returned) = true
      · rw [if_pos hg] at h
        injection h with h
        subst h; rfl
      · rw [if_neg hg] at h; cases h
  · intro lines n ls s h hret
    obtain ⟨_, _, _, hsent, hcount⟩ := returned_state_facts lines n bs ls s h hret
    refine ⟨hcount, ?_⟩
    have := congrArg Multiset.card hsent
    simp only [Multiset.coe_card] at this
    rw [hcount, this]

/-- C6 counterexample: a complete concrete run of the modelled pipeline
in which the counter reaches its final value 3 while the number of
counter-changing steps executed by a Worker goroutine is zero — the
counter is never incremented by any Worker, contradicting the claim that
multiple Workers increment it. -/
theorem c6_no_worker_increments :
    Option.map Sys.counter (runSys 2 (initSys c6lines 2) c6labels) = some 3 ∧
    countWorkerIncrements 2 (initSys c6lines 2) c6labels = 0 := by
  decide

theorem c6_witness :
    runSys 2 (initSys c6lines 2) c6labels = some c6state ∧
    c6state.returned = true ∧
    (c6state.counter = c6lines.length ∧
      c6state.counter = (sentDocs c6state).length) :=
  ⟨by decide, by decide,
    (c6_counter_owned_by_producer 2).2 c6lines 2 c6labels c6state (by decide) (by decide)⟩

end Esbulk
